import Mathlib

/-!
# Shallow embedding of the rlox front end and evaluator

Embeds `src/tokens.rs` (lexer), `src/parser.rs` (recursive-descent parser),
`src/context.rs` (static context checker), `src/environment.rs` (scope chain)
and `src/interpreter.rs` (tree-walking evaluator) of the rlox repository.

Modelling conventions:
* Rust `f64` literal values are modelled as `ℚ`.  Every numeric computation a
  claim exercises (small integer addition, equality) is exact in `f64`, so the
  rational model is faithful on those inputs.
* Rust `String` byte indexing is modelled by `List Char` positions.  All inputs
  settled here are ASCII, where byte index and character index coincide.
* An out-of-bounds slice (`&s[i..]` with `i > s.len()`), an `unwrap()` of
  `None`, and `unreachable!()` all abort the Rust process; they are modelled by
  explicit `panicked` outcomes.
* Loops that the source runs without a structural bound take a fuel parameter;
  `outOfFuel` marks an unfinished (still running) computation, never an exit
  path of the program.
* `HashMap<String, _>` is modelled as an association list: only keyed insert /
  lookup / update are used by the source, for which the list is observationally
  identical.
-/

namespace RLox

/-- Runtime literal values (`tokens.rs`, `enum Literal`).  `Number(f64)` is
modelled with `ℚ` (see module comment). -/
inductive Lit where
  | num (x : ℚ)
  | str (s : String)
  | nil
  | boolean (b : Bool)
  deriving DecidableEq, Repr

/-- `tokens.rs`, `enum TokenType`.  NOTE: the Rust enum has *no* `Break`
variant, yet `parser.rs` (`Parser::statement`) matches on `TokenType::Break`;
the crate does not compile as given.  We include the variant `break_` so the
parser embeds exactly as written; the scanner never produces it because
`KEYWORD_MAP` in `tokens.rs` has no `"break"` entry. -/
inductive TokenType where
  | leftParen | rightParen | leftBrace | rightBrace
  | comma | dot | minus | plus | semicolon | slash | star | questionMark | colon
  | bang | bangEqual | equal | equalEqual
  | greater | greaterEqual | less | lessEqual
  | identifier
  | literal (l : Lit)
  | and_kw | class_kw | else_kw | fun_kw | for_kw | if_kw | or_kw
  | print_kw | return_kw | super_kw | this_kw | var_kw | while_kw
  | break_
  | eof
  deriving DecidableEq, Repr

/-- `tokens.rs`, `lazy_static! KEYWORD_MAP` — the fixed keyword table.
There is no `"break"` entry. -/
def keywordMap (s : String) : Option TokenType :=
  if s = "and" then some .and_kw
  else if s = "class" then some .class_kw
  else if s = "else" then some .else_kw
  else if s = "false" then some (.literal (.boolean false))
  else if s = "for" then some .for_kw
  else if s = "fun" then some .fun_kw
  else if s = "if" then some .if_kw
  else if s = "nil" then some (.literal .nil)
  else if s = "or" then some .or_kw
  else if s = "print" then some .print_kw
  else if s = "return" then some .return_kw
  else if s = "super" then some .super_kw
  else if s = "this" then some .this_kw
  else if s = "true" then some (.literal (.boolean true))
  else if s = "var" then some .var_kw
  else if s = "while" then some .while_kw
  else none

/-- `tokens.rs`, `struct Token { t_type, line, lexeme }`. -/
structure Token where
  t_type : TokenType
  line : Nat
  lexeme : String
  deriving DecidableEq, Repr

/-- `Token::new(tk, lexeme, line)`. -/
def Token.new (tk : TokenType) (lexeme : String) (line : Nat) : Token :=
  { t_type := tk, line := line, lexeme := lexeme }

/-- Rust `PartialEq` on `TokenType` as derived in `tokens.rs`: the manual
`PartialEq for Literal` compares only `std::mem::discriminant`, so two
`Literal` token types are equal whenever their payload constructors agree.
Used by `Parser::check`. -/
def ttEq : TokenType → TokenType → Bool
  | .literal a, .literal b =>
      match a, b with
      | .num _, .num _ => true
      | .str _, .str _ => true
      | .nil, .nil => true
      | .boolean _, .boolean _ => true
      | _, _ => false
  | a, b => decide (a = b)

/-- `tokens.rs` free functions `is_alpha` / `is_digit` / `is_alpha_numeric`. -/
def isAlphaCh (c : Char) : Bool :=
  (decide ('a' ≤ c) && decide (c ≤ 'z')) || (decide ('A' ≤ c) && decide (c ≤ 'Z')) || c = '_'

def isDigitCh (c : Char) : Bool :=
  decide ('0' ≤ c) && decide (c ≤ '9')

def isAlphaNumericCh (c : Char) : Bool :=
  isDigitCh c || isAlphaCh c

/-- An error recorded through `ErrorReporter` (`lib.rs`): the Rust code
formats `(line, place, message)` into one diagnostic line; we keep the three
components. `ErrorReporter::error` passes an empty `place`. -/
structure Report where
  line : Nat
  place : String
  msg : String
  deriving DecidableEq, Repr

/-- Scanner state (`tokens.rs`, `struct Scanner`), with the `ErrorReporter`
sink inlined as `errors`. -/
structure ScanState where
  src : List Char
  tokens : List Token
  start : Nat
  current : Nat
  line : Nat
  errors : List Report
  deriving DecidableEq, Repr

/-- Abnormal stops of the modelled Rust code: `panicked` is a process abort
(out-of-bounds slice, `unwrap` of `None`, `unreachable!`); `outOfFuel` means
the modelled loop was still running when the fuel ran out. -/
inductive Stop where
  | panicked
  | outOfFuel
  deriving DecidableEq, Repr

/-- `Scanner::get_current_char`: `self.src[self.current..].chars().next()`.
The slice panics when `current > src.len()`. -/
def getCurrentChar (s : ScanState) : Except Stop (Option Char) :=
  if s.current > s.src.length then .error .panicked
  else .ok (s.src.drop s.current).head?

/-- `Scanner::peek_next`: `self.src[self.current + 1..].chars().next()`.
The slice panics when `current + 1 > src.len()` — which happens whenever it is
consulted at the last position or beyond. -/
def peekNext (s : ScanState) : Except Stop (Option Char) :=
  if s.current + 1 > s.src.length then .error .panicked
  else .ok (s.src.drop (s.current + 1)).head?

/-- `Scanner::advance`. -/
def scAdvance (s : ScanState) : Except Stop (Option Char × ScanState) := do
  let c ← getCurrentChar s
  .ok (c, { s with current := s.current + 1 })

/-- `Scanner::is_at_end`. -/
def scIsAtEnd (s : ScanState) : Bool :=
  s.current ≥ s.src.length

/-- `Scanner::add_token`: lexeme is `src[start..current]`. -/
def addToken (s : ScanState) (t : TokenType) : ScanState :=
  let text := String.mk ((s.src.take s.current).drop s.start)
  { s with tokens := s.tokens ++ [Token.new t text s.line] }

/-- `Scanner::match_char`. -/
def scMatchChar (s : ScanState) (c : Char) : Except Stop (Bool × ScanState) := do
  match ← getCurrentChar s with
  | some x => if x = c then .ok (true, { s with current := s.current + 1 }) else .ok (false, s)
  | none => .ok (false, s)

/-- `ErrorReporter::error` as called by the scanner. -/
def scError (s : ScanState) (msg : String) : ScanState :=
  { s with errors := s.errors ++ [⟨s.line, "", msg⟩] }

/-- The `//` line-comment loop in `grab_token`:
`while get_current_char() != Some('\n') && !is_at_end() { advance() }`. -/
def lineCommentLoop : Nat → ScanState → Except Stop ScanState
  | 0, _ => .error .outOfFuel
  | fuel + 1, s => do
    let c ← getCurrentChar s
    if c ≠ some '\n' ∧ ¬ scIsAtEnd s then
      lineCommentLoop fuel { s with current := s.current + 1 }
    else
      .ok s

/-- The `/* ... */` block-comment loop in `grab_token`.  Faithful to the
source: when the current character is a newline the loop increments `line`
but does **not** advance `current`, and the loop condition evaluates both
`get_current_char()` and `peek_next()` eagerly (so `peek_next` can panic at
end of input).  Returns the final nesting count `term` for the unclosed-comment
check that follows the loop. -/
def blockCommentLoopT : Nat → Int → ScanState → Except Stop (Int × ScanState)
  | 0, _, _ => .error .outOfFuel
  | fuel + 1, term, s => do
    let curr? ← getCurrentChar s
    let next? ← peekNext s
    match curr?, next? with
    | some curr, some next =>
        let (term', s') :=
          if curr = '*' ∧ next = '/' then
            (term - 1, { s with current := s.current + 2 })
          else if curr = '/' ∧ next = '*' then
            (term + 1, { s with current := s.current + 2 })
          else if curr = '\n' then
            (term, { s with line := s.line + 1 })
          else
            (term, { s with current := s.current + 1 })
        if term' = 0 then .ok (term', s')
        else blockCommentLoopT fuel term' s'
    | _, _ => .ok (term, s)

/-- `Scanner::identifier`'s digit loop plus keyword lookup. -/
def identLoop : Nat → ScanState → Except Stop ScanState
  | 0, _ => .error .outOfFuel
  | fuel + 1, s => do
    match ← getCurrentChar s with
    | some x =>
        if isAlphaNumericCh x then identLoop fuel { s with current := s.current + 1 }
        else .ok s
    | none => .ok s

/-- `Scanner::identifier`. -/
def scIdentifier (fuel : Nat) (s : ScanState) : Except Stop ScanState := do
  let s ← identLoop fuel s
  let name := String.mk ((s.src.take s.current).drop s.start)
  match keywordMap name with
  | some tok => .ok (addToken s tok)
  | none => .ok (addToken s .identifier)

/-- The digit-consuming loop used twice by `Scanner::number`. -/
def digitLoop : Nat → ScanState → Except Stop ScanState
  | 0, _ => .error .outOfFuel
  | fuel + 1, s => do
    match ← getCurrentChar s with
    | some x =>
        if isDigitCh x then digitLoop fuel { s with current := s.current + 1 }
        else .ok s
    | none => .ok s

/-- `str::parse::<f64>` on the scanned number lexeme (digits with at most one
interior decimal point), exact over `ℚ`.  Built with `mkRat` so the kernel
computes it directly. -/
def parseNumber (cs : List Char) : ℚ :=
  let intPart := cs.takeWhile (fun c => c ≠ '.')
  let fracPart := (cs.dropWhile (fun c => c ≠ '.')).drop 1
  let digitsVal : List Char → Nat :=
    fun ds => ds.foldl (fun acc d => acc * 10 + (d.toNat - '0'.toNat)) 0
  mkRat (digitsVal intPart * 10 ^ fracPart.length + digitsVal fracPart) (10 ^ fracPart.length)

/-- `Scanner::number`.  Faithful: after the integer digits it evaluates
`(get_current_char(), peek_next())` as a pair, so `peek_next()` panics when a
number ends at the last character of the input. -/
def scNumber (fuel : Nat) (s : ScanState) : Except Stop ScanState := do
  let s ← digitLoop fuel s
  let curr? ← getCurrentChar s
  let next? ← peekNext s
  let s ← (match curr?, next? with
    | some curr, some next =>
        if curr = '.' ∧ isDigitCh next then
          digitLoop fuel { s with current := s.current + 1 }
        else
          .ok s
    | _, _ => .ok s)
  let lexeme := (s.src.take s.current).drop s.start
  .ok (addToken s (.literal (.num (parseNumber lexeme))))

/-- `Scanner::string`'s scan loop: repeated `advance()` until a `"` or end of
input; newlines bump the line counter. -/
def stringLoop : Nat → ScanState → Except Stop (Bool × ScanState)
  | 0, _ => .error .outOfFuel
  | fuel + 1, s => do
    let (c?, s) ← scAdvance s
    match c? with
    | some c =>
        if c = '"' then .ok (true, s)
        else if c = '\n' then stringLoop fuel { s with line := s.line + 1 }
        else stringLoop fuel s
    | none => .ok (false, s)

/-- `Scanner::string`. -/
def scString (fuel : Nat) (s : ScanState) : Except Stop ScanState := do
  let (terminated, s) ← stringLoop fuel s
  if terminated then
    let value := String.mk ((s.src.take (s.current - 1)).drop (s.start + 1))
    .ok (addToken s (.literal (.str value)))
  else
    .ok (scError s "Unterminated string.")

/-- `Scanner::grab_token`. -/
def grabToken (fuel : Nat) (s : ScanState) : Except Stop ScanState := do
  let (next?, s) ← scAdvance s
  match next? with
  | none => .error .panicked   -- `self.advance().unwrap()`
  | some next =>
    if next = '(' then .ok (addToken s .leftParen)
    else if next = ')' then .ok (addToken s .rightParen)
    else if next = '{' then .ok (addToken s .leftBrace)
    else if next = '}' then .ok (addToken s .rightBrace)
    else if next = ',' then .ok (addToken s .comma)
    else if next = '.' then .ok (addToken s .dot)
    else if next = '-' then .ok (addToken s .minus)
    else if next = '+' then .ok (addToken s .plus)
    else if next = ';' then .ok (addToken s .semicolon)
    else if next = '*' then .ok (addToken s .star)
    else if next = '?' then .ok (addToken s .questionMark)
    else if next = ':' then .ok (addToken s .colon)
    else if next = '!' then do
      let (m, s) ← scMatchChar s '='
      .ok (addToken s (if m then .bangEqual else .bang))
    else if next = '=' then do
      let (m, s) ← scMatchChar s '='
      .ok (addToken s (if m then .equalEqual else .equal))
    else if next = '<' then do
      let (m, s) ← scMatchChar s '='
      .ok (addToken s (if m then .lessEqual else .less))
    else if next = '>' then do
      let (m, s) ← scMatchChar s '='
      .ok (addToken s (if m then .greaterEqual else .greater))
    else if next = '/' then do
      let (m, s) ← scMatchChar s '/'
      if m then
        lineCommentLoop fuel s
      else do
        let (m2, s) ← scMatchChar s '*'
        if m2 then do
          let (term, s) ← blockCommentLoopT fuel 1 s
          if term ≠ 0 then .ok (scError s "Unclosed block comment.")
          else .ok s
        else
          .ok (addToken s .slash)
    else if next = ' ' ∨ next = '\r' ∨ next = '\t' then .ok s
    else if next = '\n' then .ok { s with line := s.line + 1 }
    else if next = '"' then scString fuel s
    else if isDigitCh next then scNumber fuel s
    else if isAlphaCh next then scIdentifier fuel s
    else .ok (scError s "Unexpected character.")

/-- The `while !self.is_at_end()` loop of `Scanner::scan_tokens`. -/
def scanLoop : Nat → ScanState → Except Stop ScanState
  | 0, _ => .error .outOfFuel
  | fuel + 1, s =>
    if scIsAtEnd s then .ok s
    else do
      let s' ← grabToken fuel { s with start := s.current }
      scanLoop fuel s'

/-- `Scanner::scan_tokens`: returns the token list (terminated by `Eof` when
the scan completes) and the reported lexical errors. -/
def scanTokens (fuel : Nat) (src : List Char) : Except Stop (List Token × List Report) := do
  let s0 : ScanState := { src := src, tokens := [], start := 0, current := 0, line := 1, errors := [] }
  let s ← scanLoop fuel s0
  .ok (s.tokens ++ [Token.new .eof "" s.line], s.errors)

/-! ## AST (`syntax.rs`) -/

/-- `syntax.rs`, `enum Expr`. -/
inductive Expr where
  | binary (l : Expr) (op : Token) (r : Expr)
  | ternary (op : Token) (c : Expr) (t : Expr) (f : Expr)
  | grouping (e : Expr)
  | lit (l : Lit)
  | var (name : Token)
  | unary (op : Token) (e : Expr)
  | assignment (name : Token) (value : Expr)
  | logical (l : Expr) (op : Token) (r : Expr)
  | call (callee : Expr) (paren : Token) (args : List Expr)
  deriving Repr

/-- `syntax.rs`, `enum Stmt`. -/
inductive Stmt where
  | print (e : Expr)
  | expr (e : Expr)
  | var (name : Token) (init : Option Expr)
  | block (stmts : List Stmt)
  | if_s (cond : Expr) (then_s : Stmt) (otherwise : Option Stmt)
  | while_s (cond : Expr) (body : Stmt)
  | brk (line : Nat)
  deriving Repr

/-! ## Parser (`parser.rs`)

The parser owns a `VecDeque<Token>` (front = next token), a `previous`
`Option<Token>` slot, and reports through the shared `ErrorReporter`.  Errors
recorded so far survive a `ParserError` (the reporter is external `&mut`
state), so the parser monad keeps state on the error path. -/

structure PState where
  tokens : List Token
  previous : Option Token
  errors : List Report
  deriving DecidableEq, Repr

/-- `ParserError`, plus the modelled abnormal stops. -/
inductive PErr where
  | parserError
  | panicked
  | outOfFuel
  deriving DecidableEq, Repr

/-- Parser computation result: state is preserved on both paths. -/
inductive PR (α : Type) where
  | ok (a : α) (s : PState)
  | err (e : PErr) (s : PState)
  deriving Repr

def PM (α : Type) : Type := PState → PR α

instance : Monad PM where
  pure a := fun s => .ok a s
  bind m f := fun s =>
    match m s with
    | .ok a s' => f a s'
    | .err e s' => .err e s'

def throwP {α : Type} (e : PErr) : PM α := fun s => .err e s

def catchP {α : Type} (m : PM α) (h : PErr → PM α) : PM α := fun s =>
  match m s with
  | .ok a s' => .ok a s'
  | .err e s' => h e s'

def getPS : PM PState := fun s => .ok s s

/-- `Parser::peek`. -/
def peekT : PM (Option Token) := fun s => .ok s.tokens.head? s

/-- `Parser::advance`: `self.previous = self.tokens.pop_front(); self.previous.clone()`. -/
def advanceT : PM (Option Token) := fun s =>
  let prev := s.tokens.head?
  .ok prev { s with previous := prev, tokens := s.tokens.tail }

/-- `Parser::previous`: `self.previous.take()`. -/
def previousT : PM (Option Token) := fun s =>
  .ok s.previous { s with previous := none }

/-- `self.previous().unwrap()` (and `self.previous.take().unwrap()`). -/
def previousUnwrap : PM Token := do
  match ← previousT with
  | some t => pure t
  | none => throwP .panicked

/-- `Parser::check` (uses Rust `==` on `TokenType`, i.e. `ttEq`). -/
def checkT (ty : TokenType) : PM Bool := do
  match ← peekT with
  | some x => pure (ttEq ty x.t_type)
  | none => pure false

/-- `Parser::curr_match`. -/
def currMatch : List TokenType → PM Bool
  | [] => pure false
  | ty :: rest => do
    if ← checkT ty then
      let _ ← advanceT
      pure true
    else
      currMatch rest

/-- `Parser::is_ident`. -/
def isIdentP : PM Bool := do
  match ← peekT with
  | some x =>
      match x.t_type with
      | .identifier => do let _ ← advanceT; pure true
      | _ => pure false
  | none => pure false

/-- `Parser::is_literal` (discriminant comparison: any `Literal` payload). -/
def isLiteralP : PM Bool := do
  match ← peekT with
  | some x =>
      match x.t_type with
      | .literal _ => do let _ ← advanceT; pure true
      | _ => pure false
  | none => pure false

/-- `Parser::error` → `ErrorReporter::report`: `Eof` tokens report the place
`"at end"`, others their lexeme. -/
def reportErr (tok : Token) (msg : String) : PM Unit := fun s =>
  let place := if tok.t_type = .eof then "at end" else tok.lexeme
  .ok () { s with errors := s.errors ++ [⟨tok.line, place, msg⟩] }

/-- `Parser::consume`.  On failure `self.peek().unwrap()` panics when the
token deque is empty. -/
def consumeT (ty : TokenType) (msg : String) : PM Token := do
  if ← checkT ty then
    match ← advanceT with
    | some t => pure t
    | none => throwP .panicked
  else
    match ← peekT with
    | some tok => do reportErr tok msg; throwP .parserError
    | none => throwP .panicked

/-- `Parser::is_at_end`. -/
def isAtEndP : PM Bool := do
  match ← peekT with
  | some _ => pure false
  | none => pure true

/-- The statement-boundary keyword set of `Parser::synchronize`. -/
def isSyncKeyword : TokenType → Bool
  | .class_kw | .fun_kw | .var_kw | .for_kw | .if_kw | .while_kw | .print_kw | .return_kw => true
  | _ => false

/-- The scan loop of `Parser::synchronize`.  The fuel never runs out in use:
each iteration pops one token, and the caller supplies `tokens.length + 1`. -/
def syncLoop : Nat → PM Unit
  | 0 => throwP .outOfFuel
  | fuel + 1 => do
    match ← peekT with
    | none => pure ()
    | some tok => do
      let s ← getPS
      let prevIsSemicolon :=
        match s.previous with
        | some y => (match y.t_type with | .semicolon => true | _ => false)
        | none => false
      if prevIsSemicolon then pure ()
      else if isSyncKeyword tok.t_type then pure ()
      else do
        let _ ← advanceT
        syncLoop fuel

/-- `Parser::synchronize`.  The loop fuel is the enclosing modelling fuel
(each iteration pops a token, so any fuel larger than the remaining token
count is never exhausted). -/
def synchronizeP (fuel : Nat) : PM Unit := do
  let _ ← advanceT
  syncLoop fuel

/-- The `while self.curr_match(&matchees)` loop of `Parser::match_two_operand`.
Each iteration consumes the operator token plus a nonempty right operand. -/
def mtoLoop (matchees : List TokenType) (higher : PM Expr)
    (comb : Expr → Token → Expr → Expr) : Nat → Expr → PM Expr
  | 0, _ => throwP .outOfFuel
  | fuel + 1, e => do
    if ← currMatch matchees then do
      let op ← previousUnwrap
      let right ← higher
      mtoLoop matchees higher comb fuel (comb e op right)
    else
      pure e

/-- `Parser::match_two_operand` (the loop runs on the enclosing modelling
fuel). -/
def matchTwoOperand (fuel : Nat) (matchees : List TokenType) (higher : PM Expr)
    (comb : Expr → Token → Expr → Expr) : PM Expr := do
  let e ← higher
  mtoLoop matchees higher comb fuel e

/-- `Parser::match_left_asoc`. -/
def matchLeftAsoc (fuel : Nat) (matchees : List TokenType) (higher : PM Expr) : PM Expr :=
  matchTwoOperand fuel matchees higher .binary

mutual

/-- `Parser::expression`. -/
def expressionP : Nat → PM Expr
  | 0 => throwP .outOfFuel
  | fuel + 1 => assignmentP fuel

/-- `Parser::assignment`.  Note: the left-hand side is parsed by `comma`, so
in this grammar assignment is the *lowest* precedence level and the comma
operator binds tighter than `=`. -/
def assignmentP : Nat → PM Expr
  | 0 => throwP .outOfFuel
  | fuel + 1 => do
    let e ← commaP fuel
    if ← currMatch [.equal] then do
      let equals ← previousUnwrap
      let value ← assignmentP fuel
      match e with
      | .var nm => pure (.assignment nm value)
      | _ => do
          reportErr equals "Invalid assignment target."
          pure e
    else
      pure e

/-- `Parser::comma`. -/
def commaP : Nat → PM Expr
  | 0 => throwP .outOfFuel
  | fuel + 1 => matchLeftAsoc fuel [.comma] (ternaryP fuel)

/-- `Parser::ternary`.  Both branches are parsed by `logic_or`, not by
`ternary` itself. -/
def ternaryP : Nat → PM Expr
  | 0 => throwP .outOfFuel
  | fuel + 1 => do
    let left ← logicOrP fuel
    if ← currMatch [.questionMark] then do
      let tk ← previousUnwrap
      let tCond ← logicOrP fuel
      let _ ← consumeT .colon "Expected to find \x27:\x27 after expr"
      let fCond ← logicOrP fuel
      pure (.ternary tk left tCond fCond)
    else
      pure left

/-- `Parser::logic_or`. -/
def logicOrP : Nat → PM Expr
  | 0 => throwP .outOfFuel
  | fuel + 1 => matchTwoOperand fuel [.or_kw] (logicAndP fuel) .logical

/-- `Parser::logic_and`. -/
def logicAndP : Nat → PM Expr
  | 0 => throwP .outOfFuel
  | fuel + 1 => matchTwoOperand fuel [.and_kw] (equalityP fuel) .logical

/-- `Parser::equality`. -/
def equalityP : Nat → PM Expr
  | 0 => throwP .outOfFuel
  | fuel + 1 => matchLeftAsoc fuel [.bangEqual, .equalEqual] (comparisonP fuel)

/-- `Parser::comparison`. -/
def comparisonP : Nat → PM Expr
  | 0 => throwP .outOfFuel
  | fuel + 1 => matchLeftAsoc fuel [.less, .lessEqual, .greater, .greaterEqual] (additionP fuel)

/-- `Parser::addition`. -/
def additionP : Nat → PM Expr
  | 0 => throwP .outOfFuel
  | fuel + 1 => matchLeftAsoc fuel [.plus, .minus] (multiplicationP fuel)

/-- `Parser::multiplication`. -/
def multiplicationP : Nat → PM Expr
  | 0 => throwP .outOfFuel
  | fuel + 1 => matchLeftAsoc fuel [.star, .slash] (unaryP fuel)

/-- `Parser::unary` (with the binary-operator-as-prefix recovery branch). -/
def unaryP : Nat → PM Expr
  | 0 => throwP .outOfFuel
  | fuel + 1 => do
    if ← currMatch [.bang, .minus] then do
      let op ← previousUnwrap
      let right ← unaryP fuel
      pure (.unary op right)
    else if ← currMatch [.equalEqual, .bangEqual, .plus, .minus,
        .lessEqual, .less, .greaterEqual, .greater, .star, .slash] then do
      let op ← previousUnwrap
      reportErr op "Expression expected before binary operator"
      let right ← unaryP fuel
      pure right
    else
      callP fuel

/-- `Parser::call`.  The source writes the loop without `?`-propagation
(it would not type-check in Rust); error propagation is the only sensible
reading and is what we embed. -/
def callP : Nat → PM Expr
  | 0 => throwP .outOfFuel
  | fuel + 1 => do
    let e ← primaryP fuel
    callLoop fuel e

def callLoop : Nat → Expr → PM Expr
  | 0, _ => throwP .outOfFuel
  | fuel + 1, e => do
    if ← currMatch [.leftParen] then do
      let e' ← finishCallP fuel e
      callLoop fuel e'
    else
      pure e

/-- `Parser::finish_call`. -/
def finishCallP : Nat → Expr → PM Expr
  | 0, _ => throwP .outOfFuel
  | fuel + 1, e => do
    let args ←
      (do
        if ← checkT .rightParen then pure []
        else argsLoop fuel [])
    let token ← consumeT .rightParen "Expected \x27)\x27 after arguments."
    pure (.call e token args)

def argsLoop : Nat → List Expr → PM (List Expr)
  | 0, _ => throwP .outOfFuel
  | fuel + 1, args => do
    if args.length ≥ 8 then do
      match ← peekT with
      | some tok => reportErr tok "Cannot have more than 8 arguments."
      | none => throwP .panicked
    let a ← expressionP fuel
    let args := args ++ [a]
    if ← currMatch [.comma] then argsLoop fuel args
    else pure args

/-- `Parser::primary`. -/
def primaryP : Nat → PM Expr
  | 0 => throwP .outOfFuel
  | _fuel + 1 => do
    if ← isLiteralP then do
      let prev ← previousUnwrap
      match prev.t_type with
      | .literal lt => pure (.lit lt)
      | _ => primaryTail _fuel
    else
      primaryTail _fuel

def primaryTail : Nat → PM Expr
  | 0 => throwP .outOfFuel
  | fuel + 1 => do
    if ← isIdentP then do
      let prev ← previousUnwrap
      pure (.var prev)
    else if ← currMatch [.leftParen] then do
      let e ← expressionP fuel
      let _ ← consumeT .rightParen "Expected \x27)\x27 after expr"
      pure (.grouping e)
    else do
      match ← peekT with
      | some uTk => do
          reportErr uTk "Unexpected token"
          throwP .parserError
      | none => throwP .panicked   -- `self.peek().unwrap()`

/-- `Parser::declaration`: on any `ParserError` it synchronizes and still
returns the error. -/
def declarationP : Nat → PM Stmt
  | 0 => throwP .outOfFuel
  | fuel + 1 =>
    catchP
      (do
        if ← currMatch [.var_kw] then varDeclarationP fuel
        else statementP fuel)
      (fun e =>
        match e with
        | .parserError => do synchronizeP fuel; throwP .parserError
        | other => throwP other)

/-- `Parser::var_declaration`. -/
def varDeclarationP : Nat → PM Stmt
  | 0 => throwP .outOfFuel
  | fuel + 1 => do
    let name ← consumeT .identifier "Expected variable name."
    let init ←
      (do
        if ← currMatch [.equal] then do
          let e ← expressionP fuel
          pure (some e)
        else pure none)
    let _ ← consumeT .semicolon "Expected \x27;\x27 after the variable declaration"
    pure (.var name init)

/-- `Parser::for_statement` — desugars into `While` (plus wrapper blocks). -/
def forStatementP : Nat → PM Stmt
  | 0 => throwP .outOfFuel
  | fuel + 1 => do
    let _ ← consumeT .leftParen "Expected \x27(\x27 after \x27for\x27."
    let init ←
      (do
        if ← currMatch [.semicolon] then pure none
        else if ← currMatch [.var_kw] then do
          let d ← varDeclarationP fuel
          pure (some d)
        else do
          let d ← expressionStatementP fuel
          pure (some d))
    let cond ←
      (do
        if ← checkT .semicolon then pure none
        else do
          let c ← expressionP fuel
          pure (some c))
    let _ ← consumeT .semicolon "Expected \x27;\x27 after loop condition"
    let increment ←
      (do
        if ← checkT .rightParen then pure none
        else do
          let c ← expressionP fuel
          pure (some c))
    let _ ← consumeT .rightParen "Expected \x27)\x27 after for clauses."
    let body ← statementP fuel
    let body :=
      match increment with
      | some inc => Stmt.block [body, .expr inc]
      | none => body
    let cond := cond.getD (.lit (.boolean true))
    let wstmt := Stmt.while_s cond body
    let fullStmt :=
      match init with
      | some i => Stmt.block [i, wstmt]
      | none => wstmt
    pure fullStmt

/-- `Parser::statement`.  The `TokenType::Break` arm is dead in practice: the
scanner never emits a `break_` token (see `TokenType`). -/
def statementP : Nat → PM Stmt
  | 0 => throwP .outOfFuel
  | fuel + 1 => do
    if ← currMatch [.print_kw] then printStatementP fuel
    else if ← currMatch [.leftBrace] then blockP fuel
    else if ← currMatch [.if_kw] then ifStatementP fuel
    else if ← currMatch [.while_kw] then whileStatementP fuel
    else if ← currMatch [.for_kw] then forStatementP fuel
    else if ← currMatch [.break_] then breakStatementP fuel
    else expressionStatementP fuel

/-- `Parser::break_statement`. -/
def breakStatementP : Nat → PM Stmt
  | 0 => throwP .outOfFuel
  | _fuel + 1 => do
    let prev ← previousUnwrap
    let line := prev.line
    let _ ← consumeT .semicolon "Expected \x27;\x27 after break."
    pure (.brk line)

/-- `Parser::while_statement`. -/
def whileStatementP : Nat → PM Stmt
  | 0 => throwP .outOfFuel
  | fuel + 1 => do
    let _ ← consumeT .leftParen "Expected \x27(\x27 after while"
    let cond ← expressionP fuel
    let _ ← consumeT .rightParen "Expected \x27)\x27 after condition"
    let then_s ← statementP fuel
    pure (.while_s cond then_s)

/-- `Parser::if_statement`. -/
def ifStatementP : Nat → PM Stmt
  | 0 => throwP .outOfFuel
  | fuel + 1 => do
    let _ ← consumeT .leftParen "Expected \x27(\x27 after if"
    let cond ← expressionP fuel
    let _ ← consumeT .rightParen "Expected \x27)\x27 after condition"
    let then_s ← statementP fuel
    let otherwise ←
      (do
        if ← currMatch [.else_kw] then do
          let o ← statementP fuel
          pure (some o)
        else pure none)
    pure (.if_s cond then_s otherwise)

/-- `Parser::block`. -/
def blockP : Nat → PM Stmt
  | 0 => throwP .outOfFuel
  | fuel + 1 => blockLoop fuel []

def blockLoop : Nat → List Stmt → PM Stmt
  | 0, _ => throwP .outOfFuel
  | fuel + 1, acc => do
    let rb ← checkT .rightBrace
    let atEnd ← isAtEndP
    if ¬ rb ∧ ¬ atEnd then do
      let d ← declarationP fuel
      blockLoop fuel (acc ++ [d])
    else do
      let _ ← consumeT .rightBrace "Expected \x27\x7d\x27 ater block."
      pure (.block acc)

/-- `Parser::print_statement`. -/
def printStatementP : Nat → PM Stmt
  | 0 => throwP .outOfFuel
  | fuel + 1 => do
    let value ← expressionP fuel
    let _ ← consumeT .semicolon "Expected \x27;\x27 after value"
    pure (.print value)

/-- `Parser::expression_statement`. -/
def expressionStatementP : Nat → PM Stmt
  | 0 => throwP .outOfFuel
  | fuel + 1 => do
    let value ← expressionP fuel
    let _ ← consumeT .semicolon "Expected \x27;\x27 after value"
    pure (.expr value)

/-- The loop of `Parser::parse`.  `stmts.push(self.declaration()?)` — the
`?` aborts the whole parse on the first declaration error, discarding the
recovery that `declaration` just performed. -/
def parseLoop : Nat → List Stmt → PM (List Stmt)
  | 0, _ => throwP .outOfFuel
  | fuel + 1, acc => do
    let s ← getPS
    if s.tokens.isEmpty then pure acc
    else if ← currMatch [.eof] then pure acc
    else do
      let d ← declarationP fuel
      parseLoop fuel (acc ++ [d])

end

/-- `Parser::parse` on a fresh parser (`Parser::new`). -/
def parseTokens (fuel : Nat) (tokens : List Token) : PR (List Stmt) :=
  parseLoop fuel [] { tokens := tokens, previous := none, errors := [] }

/-! ## Static context checker (`context.rs`) -/

/-- `context.rs`, `enum ContextError`. -/
inductive ContextError where
  | breakOutsideLoop (line : Nat)
  deriving DecidableEq, Repr

mutual

/-- `ContextCheck`'s `StmtVisitor` impl, with the `inside_loop` flag as the
visitor's one field.  `visit_while` sets the flag entering the body;
`visit_if` and `visit_block_stmt` pass it through; `visit_block_stmt`
stops at the first failing contained statement (the `?`). -/
def ctxVisit (insideLoop : Bool) : Stmt → Except ContextError Unit
  | .print _ => .ok ()
  | .brk line => if insideLoop then .ok () else .error (.breakOutsideLoop line)
  | .expr _ => .ok ()
  | .var _ _ => .ok ()
  | .while_s _ body => ctxVisit true body
  | .if_s _ then_s otherwise => do
      ctxVisit insideLoop then_s
      match otherwise with
      | some other => ctxVisit insideLoop other
      | none => .ok ()
  | .block stmts => ctxVisitList insideLoop stmts

def ctxVisitList (insideLoop : Bool) : List Stmt → Except ContextError Unit
  | [] => .ok ()
  | st :: rest => do
      ctxVisit insideLoop st
      ctxVisitList insideLoop rest

end

/-- `context.rs`, free function `check`: a fresh `ContextCheck::new(false)`
per top-level statement, `filter_map` collecting the per-statement errors. -/
def check (stmts : List Stmt) : List ContextError :=
  stmts.filterMap (fun x =>
    match ctxVisit false x with
    | .error er => some er
    | .ok _ => none)

/-! ## Scope chain (`environment.rs`) -/

/-- `environment.rs`, `struct Environment` — the `HashMap<String, Option<Literal>>`
modelled as an association list (only keyed operations are used). -/
structure Env where
  values : List (String × Option Lit)
  deriving DecidableEq, Repr

def Env.new : Env := { values := [] }

/-- `HashMap::insert` (replace an existing key's entry or add a new one). -/
def alInsert (name : String) (v : Option Lit) : List (String × Option Lit) → List (String × Option Lit)
  | [] => [(name, v)]
  | (k, w) :: rest => if k = name then (k, v) :: rest else (k, w) :: alInsert name v rest

/-- `Environment::define`. -/
def Env.define (e : Env) (name : String) (v : Option Lit) : Env :=
  { values := alInsert name v e.values }

/-- The error payload of `InterpreterError` (`interpreter.rs`): the Rust code
formats message, lexeme and line into one string; we keep the components. -/
structure InterpError where
  line : Nat
  lexeme : String
  msg : String
  deriving DecidableEq, Repr

/-- `InterpreterError::new(tk, err)`. -/
def InterpError.ofToken (tk : Token) (err : String) : InterpError :=
  { line := tk.line, lexeme := tk.lexeme, msg := err }

/-- `interpreter.rs`, `enum RuntimeError`. -/
inductive RuntimeError where
  | breakSentinel
  | interpreterError (e : InterpError)
  deriving DecidableEq, Repr

/-- `Environment::get`: `Ok(values.get(lexeme).clone())` when the key is
present, otherwise an "Undefined variable" error. -/
def Env.get (e : Env) (tk : Token) : Except RuntimeError (Option Lit) :=
  match e.values.lookup tk.lexeme with
  | some val => .ok val
  | none => .error (.interpreterError (.ofToken tk "Undefined variable"))

/-- `Environment::assign`. -/
def Env.assign (e : Env) (name : Token) (value : Lit) : Except RuntimeError Env :=
  if (e.values.lookup name.lexeme).isNone then
    .error (.interpreterError (.ofToken name " Undefined variable"))
  else
    .ok { values := alInsert name.lexeme (some value) e.values }

/-- `environment.rs`, `struct Stack`.  Rust keeps pushed scopes in a `Vec`
(push/pop at the end, `iter().rev()` walks newest-first); we keep the list
head as the newest pushed scope so that plain left-to-right traversal is the
`rev()` order. -/
structure Stack where
  envs : List Env
  current : Env
  deriving DecidableEq, Repr

def Stack.new : Stack := { envs := [], current := Env.new }

/-- `Stack::push_new`. -/
def Stack.push_new (s : Stack) : Stack :=
  { envs := s.current :: s.envs, current := Env.new }

/-- `Stack::restore_old`: `self.envs.pop().unwrap()` — `none` models the
unwrap panic on an empty stack. -/
def Stack.restore_old (s : Stack) : Option Stack :=
  match s.envs with
  | [] => none
  | e :: rest => some { envs := rest, current := e }

/-- `Stack::define`. -/
def Stack.define (s : Stack) (name : String) (v : Option Lit) : Stack :=
  { s with current := s.current.define name v }

/-- The `for item in self.envs.iter_mut().rev()` loop of `Stack::assign`. -/
def assignOuter (name : Token) (value : Lit) : List Env → Option (List Env)
  | [] => none
  | e :: rest =>
      match e.assign name value with
      | .ok e' => some (e' :: rest)
      | .error _ =>
          match assignOuter name value rest with
          | some rest' => some (e :: rest')
          | none => none

/-- `Stack::assign`. -/
def Stack.assign (s : Stack) (name : Token) (value : Lit) : Except RuntimeError Stack :=
  match s.current.assign name value with
  | .ok c => .ok { s with current := c }
  | .error _ =>
      match assignOuter name value s.envs with
      | some envs' => .ok { s with envs := envs' }
      | none => .error (.interpreterError (.ofToken name " Undefined variable"))

/-- The `for item in self.envs.iter().rev()` loop of `Stack::get_helper`. -/
def getOuter (tk : Token) : List Env → Except RuntimeError (Option Lit)
  | [] => .error (.interpreterError (.ofToken tk "Undefined variable"))
  | e :: rest =>
      match e.get tk with
      | .ok val => .ok val
      | .error _ => getOuter tk rest

/-- `Stack::get_helper`. -/
def Stack.get_helper (s : Stack) (tk : Token) : Except RuntimeError (Option Lit) :=
  match s.current.get tk with
  | .ok val => .ok val
  | .error _ => getOuter tk s.envs

/-- `Stack::get`. -/
def Stack.get (s : Stack) (tk : Token) : Except RuntimeError Lit := do
  match ← s.get_helper tk with
  | some lt => .ok lt
  | none => .error (.interpreterError (.ofToken tk "Uninitialized variable"))

/-! ## Evaluator (`interpreter.rs`) -/

/-- `Literal`'s `ToString` (`tokens.rs`).  Rust formats `f64` with shortest
round-trip decimal notation; integral values print without a decimal point,
which is the only case any claim exercises; non-integral rationals fall back
to a fraction rendering that no claim relies on. -/
def numToString (q : ℚ) : String :=
  if q.den = 1 then toString q.num
  else toString q.num ++ "/" ++ toString q.den

def litToString : Lit → String
  | .num v => numToString v
  | .str s => s
  | .boolean b => if b then "true" else "false"
  | .nil => "nil"

/-- `interpreter.rs`, free function `is_truthy`. -/
def is_truthy : Lit → Bool
  | .nil => false
  | .boolean x => x
  | _ => true

/-- `interpreter.rs`, free function `is_equal` (type-discriminated equality;
`f64` equality is exact on the modelled rationals). -/
def is_equal : Lit → Lit → Bool
  | .num f, .num s => f = s
  | .num _, _ => false
  | .boolean f, .boolean s => f = s
  | .boolean _, _ => false
  | .str f, .str s => f = s
  | .str _, _ => false
  | .nil, s => decide (Lit.nil = s)

/-- `unpack_number`. -/
def unpack_number (ltl : Lit) (tk : Token) : Except RuntimeError ℚ :=
  match ltl with
  | .num x => .ok x
  | _ => .error (.interpreterError (.ofToken tk "Expected number"))

/-- `unpack_into_string` — only strings and numbers coerce; booleans and nil
produce an error. -/
def unpack_into_string (ltl : Lit) (tk : Token) : Except RuntimeError String :=
  match ltl with
  | .str x => .ok x
  | .num x => .ok (numToString x)
  | _ => .error (.interpreterError (.ofToken tk "Expected value that can be a String"))

/-- Interpreter state: the scope chain plus the `println!` output channel of
`visit_print`. -/
structure IState where
  stack : Stack
  output : List String
  deriving DecidableEq, Repr

/-- Outcome of an evaluator step.  `ok`/`err` carry the state (Rust threads
`&mut self` through both); `panicked` is a process abort (`unreachable!`,
`unwrap` of `None`); `stubCall` marks reaching the unimplemented callable
machinery of `functions.rs`; `fuelOut` marks exhausted modelling fuel. -/
inductive IR (α : Type) where
  | ok (a : α) (s : IState)
  | err (e : RuntimeError) (s : IState)
  | panicked
  | stubCall
  | fuelOut
  deriving Repr

/-- `visit_binary`'s dispatch on an already-evaluated operand pair.  The outer
match covers exactly the arms of the source `match op.get_type()`; every other
operator token — including `Comma`, which the parser's comma level produces —
falls into `unreachable!()`, i.e. `panicked`.  The `f64` arithmetic and
comparisons are the core `Rat` operations (`Rat.blt a b` is `a < b`); the
`right == 0.0` divisor test is `r.num = 0`, which for a normalized rational
is exactly `r = 0`. -/
def binaryOp (op : Token) (left right : Lit) (s : IState) : IR Lit :=
  match op.t_type with
  | .minus | .slash | .star | .greater | .greaterEqual | .lessEqual | .less =>
      (match unpack_number left op with
       | .error e => .err e s
       | .ok l =>
         match unpack_number right op with
         | .error e => .err e s
         | .ok r =>
           match op.t_type with
           | .minus => .ok (.num (Rat.sub l r)) s
           | .slash =>
               if r.num = 0 then .err (.interpreterError (.ofToken op "Division by zero")) s
               else .ok (.num (Rat.div l r)) s
           | .star => .ok (.num (Rat.mul l r)) s
           | .greater => .ok (.boolean (Rat.blt r l)) s
           | .greaterEqual => .ok (.boolean (! Rat.blt l r)) s
           | .less => .ok (.boolean (Rat.blt l r)) s
           | .lessEqual => .ok (.boolean (! Rat.blt r l)) s
           | _ => .panicked)
  | .plus =>
      (match unpack_number left op, unpack_number right op with
       | .ok nl, .ok nr => .ok (.num (Rat.add nl nr)) s
       | _, _ =>
         match unpack_into_string left op with
         | .error e => .err e s
         | .ok sl =>
           match unpack_into_string right op with
           | .error e => .err e s
           | .ok sr => .ok (.str (sl ++ sr)) s)
  | .equalEqual => .ok (.boolean (is_equal left right)) s
  | .bangEqual => .ok (.boolean (!is_equal left right)) s
  | _ => .panicked

mutual

/-- `Interpreter::evaluate` = `expr.accept(self)` over the `ExprVisitor` impl. -/
def evaluate : Nat → Expr → IState → IR Lit
  | 0, _, _ => .fuelOut
  | _fuel + 1, .lit l, s => .ok l s
  | fuel + 1, .grouping e, s => evaluate fuel e s
  | fuel + 1, .unary op e, s =>
      -- visit_unary
      (match evaluate fuel e s with
       | .ok right s =>
         (match op.t_type with
          | .minus =>
            (match unpack_number right op with
             | .ok x => .ok (.num (Rat.neg x)) s
             | .error e => .err e s)
          | .bang => .ok (.boolean (!is_truthy right)) s
          | _ => .panicked)
       | other => other)
  | fuel + 1, .binary l op r, s =>
      -- visit_binary: both operands evaluated first, then the dispatch
      (match evaluate fuel l s with
       | .ok left s =>
         (match evaluate fuel r s with
          | .ok right s => binaryOp op left right s
          | .err e s => .err e s
          | .panicked => .panicked
          | .stubCall => .stubCall
          | .fuelOut => .fuelOut)
       | other => other)
  | fuel + 1, .logical l op r, s =>
      -- visit_logical
      (match evaluate fuel l s with
       | .ok left s =>
         (match op.t_type with
          | .or_kw => if is_truthy left then .ok left s else evaluate fuel r s
          | _ => if ¬ is_truthy left then .ok left s else evaluate fuel r s)
       | other => other)
  | fuel + 1, .ternary _op c t f, s =>
      -- visit_ternary
      (match evaluate fuel c s with
       | .ok left s =>
         if is_truthy left then evaluate fuel t s else evaluate fuel f s
       | other => other)
  | _fuel + 1, .var name, s =>
      -- visit_variable_expr
      (match s.stack.get name with
       | .ok v => .ok v s
       | .error e => .err e s)
  | fuel + 1, .assignment name value, s =>
      -- visit_assignment
      (match evaluate fuel value s with
       | .ok v s =>
         (match s.stack.assign name v with
          | .ok stack' => .ok v { s with stack := stack' }
          | .error e => .err e s)
       | other => other)
  | fuel + 1, .call callee _tk args, s =>
      -- visit_call: callee then arguments are evaluated, then `Callable::from`
      -- is reached.  Modelled from the spec: functions.rs's
      -- `Callable::from` / `call` bodies are unimplemented stubs (§9 of the
      -- spec records the call machinery as incomplete), so reaching them is a
      -- distinguished `stubCall` outcome.
      (match evaluate fuel callee s with
       | .ok _callee s =>
         (match evalArgs fuel args s with
          | .ok _args _s => .stubCall
          | .err e s => .err e s
          | .panicked => .panicked
          | .stubCall => .stubCall
          | .fuelOut => .fuelOut)
       | other => other)

/-- The `args.into_iter().map(|x| self.evaluate(x)).collect::<Result<_>>()`
of `visit_call`: left-to-right, stopping at the first error. -/
def evalArgs : Nat → List Expr → IState → IR (List Lit)
  | 0, _, _ => .fuelOut
  | _fuel + 1, [], s => .ok [] s
  | fuel + 1, e :: rest, s =>
      (match evaluate fuel e s with
       | .ok v s =>
         (match evalArgs fuel rest s with
          | .ok vs s => .ok (v :: vs) s
          | other => other)
       | .err e s => .err e s
       | .panicked => .panicked
       | .stubCall => .stubCall
       | .fuelOut => .fuelOut)

/-- `Interpreter::execute` = `stmt.accept(self)` over the `StmtVisitor` impl. -/
def execute : Nat → Stmt → IState → IR Unit
  | 0, _, _ => .fuelOut
  | fuel + 1, .print e, s =>
      -- visit_print
      (match evaluate fuel e s with
       | .ok v s => .ok () { s with output := s.output ++ [litToString v] }
       | .err e s => .err e s
       | .panicked => .panicked
       | .stubCall => .stubCall
       | .fuelOut => .fuelOut)
  | _fuel + 1, .brk _line, s =>
      -- visit_break
      .err .breakSentinel s
  | fuel + 1, .while_s cond body, s =>
      whileLoop fuel cond body s
  | fuel + 1, .if_s cond then_s otherwise, s =>
      -- visit_if
      (match evaluate fuel cond s with
       | .ok c s =>
         if is_truthy c then execute fuel then_s s
         else
           (match otherwise with
            | some o => execute fuel o s
            | none => .ok () s)
       | .err e s => .err e s
       | .panicked => .panicked
       | .stubCall => .stubCall
       | .fuelOut => .fuelOut)
  | fuel + 1, .block stmts, s =>
      -- visit_block_stmt: push a scope, run the statements, restore on both
      -- the early-error path and the normal path
      execBlockList fuel stmts { s with stack := s.stack.push_new }
  | fuel + 1, .var name init, s =>
      -- visit_variable
      (match init with
       | some e =>
         (match evaluate fuel e s with
          | .ok v s => .ok () { s with stack := s.stack.define name.lexeme (some v) }
          | .err er s => .err er s
          | .panicked => .panicked
          | .stubCall => .stubCall
          | .fuelOut => .fuelOut)
       | none => .ok () { s with stack := s.stack.define name.lexeme none })
  | fuel + 1, .expr e, s =>
      -- visit_expr_statement
      (match evaluate fuel e s with
       | .ok _ s => .ok () s
       | .err er s => .err er s
       | .panicked => .panicked
       | .stubCall => .stubCall
       | .fuelOut => .fuelOut)

/-- The statement loop of `visit_block_stmt` (already inside the pushed
scope): on the first error `restore_old` then return the error; after a
normal pass `restore_old` then `Ok`. -/
def execBlockList : Nat → List Stmt → IState → IR Unit
  | 0, _, _ => .fuelOut
  | _fuel + 1, [], s =>
      (match s.stack.restore_old with
       | some stack' => .ok () { s with stack := stack' }
       | none => .panicked)
  | fuel + 1, st :: rest, s =>
      (match execute fuel st s with
       | .ok _ s => execBlockList fuel rest s
       | .err e s =>
         (match s.stack.restore_old with
          | some stack' => .err e { s with stack := stack' }
          | none => .panicked)
       | .panicked => .panicked
       | .stubCall => .stubCall
       | .fuelOut => .fuelOut)

/-- `visit_while`: run the body while the condition is truthy; a
`BreakSentinel` error from the body exits the loop with `Ok`; any other error
propagates. -/
def whileLoop : Nat → Expr → Stmt → IState → IR Unit
  | 0, _, _, _ => .fuelOut
  | fuel + 1, cond, body, s =>
      (match evaluate fuel cond s with
       | .ok c s =>
         if is_truthy c then
           (match execute fuel body s with
            | .ok _ s => whileLoop fuel cond body s
            | .err .breakSentinel s => .ok () s
            | .err e s => .err e s
            | .panicked => .panicked
            | .stubCall => .stubCall
            | .fuelOut => .fuelOut)
         else .ok () s
       | .err e s => .err e s
       | .panicked => .panicked
       | .stubCall => .stubCall
       | .fuelOut => .fuelOut)

end

/-- The `for stmt in statements { visit.execute(stmt)?; }` loop of
`interpret`. -/
def interpretLoop : Nat → List Stmt → IState → IR Unit
  | 0, _, _ => .fuelOut
  | _fuel + 1, [], s => .ok () s
  | fuel + 1, st :: rest, s =>
      (match execute fuel st s with
       | .ok _ s => interpretLoop fuel rest s
       | other => other)

/-- `interpreter.rs`, free function `interpret`: a fresh interpreter with
`Stack::new()`. -/
def interpret (fuel : Nat) (statements : List Stmt) : IR Unit :=
  interpretLoop fuel statements { stack := Stack.new, output := [] }

/-! ## The `run` entry point (`lib.rs`) -/

/-- Result of `run`: either execution was suppressed (some stage reported
diagnostics, or the parse failed), or the interpreter ran. -/
inductive RunResult where
  | scanStopped (st : Stop)
  | parserStopped
  | suppressed (scanErrs parseErrs : List Report) (ctxErrs : List ContextError)
  | executed (res : IR Unit)
  deriving Repr

/-- `lib.rs`, `run`: Scanner → Parser → (on parse success) context check →
(only when no stage reported an error) interpret. -/
def run (fuel : Nat) (src : List Char) : RunResult :=
  match scanTokens fuel src with
  | .error st => .scanStopped st
  | .ok (toks, scanErrs) =>
    match parseTokens fuel toks with
    | .err .parserError ps => .suppressed scanErrs ps.errors []
    | .err _ _ => .parserStopped
    | .ok stmts ps =>
      let ctxErrs := check stmts
      if scanErrs.isEmpty ∧ ps.errors.isEmpty ∧ ctxErrs.isEmpty then
        .executed (interpret fuel stmts)
      else
        .suppressed scanErrs ps.errors ctxErrs

/-! ## Specification-side definitions used to state claims -/

mutual

/-- Number of `Break` statements lexically outside any enclosing loop body
(the claim's "break statements outside any loop"), threading the same
inside-a-loop flag the checker threads. -/
def breaksOutside (insideLoop : Bool) : Stmt → Nat
  | .print _ => 0
  | .expr _ => 0
  | .var _ _ => 0
  | .brk _ => if insideLoop then 0 else 1
  | .while_s _ body => breaksOutside true body
  | .if_s _ then_s otherwise =>
      breaksOutside insideLoop then_s +
        (match otherwise with
         | some o => breaksOutside insideLoop o
         | none => 0)
  | .block stmts => breaksOutsideList insideLoop stmts

def breaksOutsideList (insideLoop : Bool) : List Stmt → Nat
  | [] => 0
  | st :: rest => breaksOutside insideLoop st + breaksOutsideList insideLoop rest

end

/-- The spec's three-outcome description of `get`: the innermost scope of the
chain (current scope first, then outward) that contains the name decides the
result. -/
def chainLookup (name : String) : List Env → Option (Option Lit)
  | [] => none
  | e :: rest =>
      match e.values.lookup name with
      | some v => some v
      | none => chainLookup name rest

/-- The display-string coercion of the spec's `+` rule, as the code implements
it (`unpack_into_string`): strings pass through, numbers render, and booleans
and nil have no display coercion. -/
def displayString : Lit → Option String
  | .str s => some s
  | .num x => some (numToString x)
  | _ => none

/-- The amended `+` contract: both numbers → numeric sum; otherwise each
operand that is a number or a string is coerced to its display string
(left side checked first) and the two are concatenated; a boolean or nil
operand makes the string path fail with a runtime error. -/
def plusSpec (op : Token) (l r : Lit) : Except RuntimeError Lit :=
  match l, r with
  | .num a, .num b => .ok (.num (Rat.add a b))
  | _, _ =>
    match displayString l with
    | none => .error (.interpreterError (.ofToken op "Expected value that can be a String"))
    | some sl =>
      match displayString r with
      | none => .error (.interpreterError (.ofToken op "Expected value that can be a String"))
      | some sr => .ok (.str (sl ++ sr))

/-- Depth comparison for evaluator outcomes: on the `ok` and `err` exit paths
the scope-chain depth equals that of the entry state; abnormal stops
(`panicked`, `stubCall`, `fuelOut`) are not exit paths of the program. -/
def sameDepth {α : Type} (s : IState) : IR α → Prop
  | .ok _ s' => s'.stack.envs.length = s.stack.envs.length
  | .err _ s' => s'.stack.envs.length = s.stack.envs.length
  | _ => True

/-- The initial interpreter state (`interpret`'s fresh `Stack::new()`). -/
def initIState : IState := { stack := Stack.new, output := [] }

deriving instance DecidableEq for Except
deriving instance DecidableEq for IR
deriving instance DecidableEq for RunResult

/-! ## Decidable equality for the AST

Lean's deriving handler does not cover the nested `List` occurrences in
`Expr.call` and `Stmt.block`, so the instances are written out. -/

mutual

def exprDecEq : (a b : Expr) → Decidable (a = b)
  | .binary l1 op1 r1, .binary l2 op2 r2 =>
      match exprDecEq l1 l2, decEq op1 op2, exprDecEq r1 r2 with
      | .isTrue h1, .isTrue h2, .isTrue h3 => .isTrue (by rw [h1, h2, h3])
      | .isFalse h1, _, _ => .isFalse (fun he => by injection he with h1e h2e h3e; exact h1 h1e)
      | _, .isFalse h2, _ => .isFalse (fun he => by injection he with h1e h2e h3e; exact h2 h2e)
      | _, _, .isFalse h3 => .isFalse (fun he => by injection he with h1e h2e h3e; exact h3 h3e)
  | .ternary op1 c1 t1 f1, .ternary op2 c2 t2 f2 =>
      match decEq op1 op2, exprDecEq c1 c2, exprDecEq t1 t2, exprDecEq f1 f2 with
      | .isTrue h1, .isTrue h2, .isTrue h3, .isTrue h4 => .isTrue (by rw [h1, h2, h3, h4])
      | .isFalse h1, _, _, _ => .isFalse (fun he => by injection he with h1e h2e h3e h4e; exact h1 h1e)
      | _, .isFalse h2, _, _ => .isFalse (fun he => by injection he with h1e h2e h3e h4e; exact h2 h2e)
      | _, _, .isFalse h3, _ => .isFalse (fun he => by injection he with h1e h2e h3e h4e; exact h3 h3e)
      | _, _, _, .isFalse h4 => .isFalse (fun he => by injection he with h1e h2e h3e h4e; exact h4 h4e)
  | .grouping e1, .grouping e2 =>
      match exprDecEq e1 e2 with
      | .isTrue h1 => .isTrue (by rw [h1])
      | .isFalse h1 => .isFalse (fun he => by injection he with h1e; exact h1 h1e)
  | .lit l1, .lit l2 =>
      match decEq l1 l2 with
      | .isTrue h1 => .isTrue (by rw [h1])
      | .isFalse h1 => .isFalse (fun he => by injection he with h1e; exact h1 h1e)
  | .var name1, .var name2 =>
      match decEq name1 name2 with
      | .isTrue h1 => .isTrue (by rw [h1])
      | .isFalse h1 => .isFalse (fun he => by injection he with h1e; exact h1 h1e)
  | .unary op1 e1, .unary op2 e2 =>
      match decEq op1 op2, exprDecEq e1 e2 with
      | .isTrue h1, .isTrue h2 => .isTrue (by rw [h1, h2])
      | .isFalse h1, _ => .isFalse (fun he => by injection he with h1e h2e; exact h1 h1e)
      | _, .isFalse h2 => .isFalse (fun he => by injection he with h1e h2e; exact h2 h2e)
  | .assignment name1 value1, .assignment name2 value2 =>
      match decEq name1 name2, exprDecEq value1 value2 with
      | .isTrue h1, .isTrue h2 => .isTrue (by rw [h1, h2])
      | .isFalse h1, _ => .isFalse (fun he => by injection he with h1e h2e; exact h1 h1e)
      | _, .isFalse h2 => .isFalse (fun he => by injection he with h1e h2e; exact h2 h2e)
  | .logical l1 op1 r1, .logical l2 op2 r2 =>
      match exprDecEq l1 l2, decEq op1 op2, exprDecEq r1 r2 with
      | .isTrue h1, .isTrue h2, .isTrue h3 => .isTrue (by rw [h1, h2, h3])
      | .isFalse h1, _, _ => .isFalse (fun he => by injection he with h1e h2e h3e; exact h1 h1e)
      | _, .isFalse h2, _ => .isFalse (fun he => by injection he with h1e h2e h3e; exact h2 h2e)
      | _, _, .isFalse h3 => .isFalse (fun he => by injection he with h1e h2e h3e; exact h3 h3e)
  | .call callee1 paren1 args1, .call callee2 paren2 args2 =>
      match exprDecEq callee1 callee2, decEq paren1 paren2, exprListDecEq args1 args2 with
      | .isTrue h1, .isTrue h2, .isTrue h3 => .isTrue (by rw [h1, h2, h3])
      | .isFalse h1, _, _ => .isFalse (fun he => by injection he with h1e h2e h3e; exact h1 h1e)
      | _, .isFalse h2, _ => .isFalse (fun he => by injection he with h1e h2e h3e; exact h2 h2e)
      | _, _, .isFalse h3 => .isFalse (fun he => by injection he with h1e h2e h3e; exact h3 h3e)
  | .binary _ _ _, .ternary _ _ _ _ => .isFalse nofun
  | .binary _ _ _, .grouping _ => .isFalse nofun
  | .binary _ _ _, .lit _ => .isFalse nofun
  | .binary _ _ _, .var _ => .isFalse nofun
  | .binary _ _ _, .unary _ _ => .isFalse nofun
  | .binary _ _ _, .assignment _ _ => .isFalse nofun
  | .binary _ _ _, .logical _ _ _ => .isFalse nofun
  | .binary _ _ _, .call _ _ _ => .isFalse nofun
  | .ternary _ _ _ _, .binary _ _ _ => .isFalse nofun
  | .ternary _ _ _ _, .grouping _ => .isFalse nofun
  | .ternary _ _ _ _, .lit _ => .isFalse nofun
  | .ternary _ _ _ _, .var _ => .isFalse nofun
  | .ternary _ _ _ _, .unary _ _ => .isFalse nofun
  | .ternary _ _ _ _, .assignment _ _ => .isFalse nofun
  | .ternary _ _ _ _, .logical _ _ _ => .isFalse nofun
  | .ternary _ _ _ _, .call _ _ _ => .isFalse nofun
  | .grouping _, .binary _ _ _ => .isFalse nofun
  | .grouping _, .ternary _ _ _ _ => .isFalse nofun
  | .grouping _, .lit _ => .isFalse nofun
  | .grouping _, .var _ => .isFalse nofun
  | .grouping _, .unary _ _ => .isFalse nofun
  | .grouping _, .assignment _ _ => .isFalse nofun
  | .grouping _, .logical _ _ _ => .isFalse nofun
  | .grouping _, .call _ _ _ => .isFalse nofun
  | .lit _, .binary _ _ _ => .isFalse nofun
  | .lit _, .ternary _ _ _ _ => .isFalse nofun
  | .lit _, .grouping _ => .isFalse nofun
  | .lit _, .var _ => .isFalse nofun
  | .lit _, .unary _ _ => .isFalse nofun
  | .lit _, .assignment _ _ => .isFalse nofun
  | .lit _, .logical _ _ _ => .isFalse nofun
  | .lit _, .call _ _ _ => .isFalse nofun
  | .var _, .binary _ _ _ => .isFalse nofun
  | .var _, .ternary _ _ _ _ => .isFalse nofun
  | .var _, .grouping _ => .isFalse nofun
  | .var _, .lit _ => .isFalse nofun
  | .var _, .unary _ _ => .isFalse nofun
  | .var _, .assignment _ _ => .isFalse nofun
  | .var _, .logical _ _ _ => .isFalse nofun
  | .var _, .call _ _ _ => .isFalse nofun
  | .unary _ _, .binary _ _ _ => .isFalse nofun
  | .unary _ _, .ternary _ _ _ _ => .isFalse nofun
  | .unary _ _, .grouping _ => .isFalse nofun
  | .unary _ _, .lit _ => .isFalse nofun
  | .unary _ _, .var _ => .isFalse nofun
  | .unary _ _, .assignment _ _ => .isFalse nofun
  | .unary _ _, .logical _ _ _ => .isFalse nofun
  | .unary _ _, .call _ _ _ => .isFalse nofun
  | .assignment _ _, .binary _ _ _ => .isFalse nofun
  | .assignment _ _, .ternary _ _ _ _ => .isFalse nofun
  | .assignment _ _, .grouping _ => .isFalse nofun
  | .assignment _ _, .lit _ => .isFalse nofun
  | .assignment _ _, .var _ => .isFalse nofun
  | .assignment _ _, .unary _ _ => .isFalse nofun
  | .assignment _ _, .logical _ _ _ => .isFalse nofun
  | .assignment _ _, .call _ _ _ => .isFalse nofun
  | .logical _ _ _, .binary _ _ _ => .isFalse nofun
  | .logical _ _ _, .ternary _ _ _ _ => .isFalse nofun
  | .logical _ _ _, .grouping _ => .isFalse nofun
  | .logical _ _ _, .lit _ => .isFalse nofun
  | .logical _ _ _, .var _ => .isFalse nofun
  | .logical _ _ _, .unary _ _ => .isFalse nofun
  | .logical _ _ _, .assignment _ _ => .isFalse nofun
  | .logical _ _ _, .call _ _ _ => .isFalse nofun
  | .call _ _ _, .binary _ _ _ => .isFalse nofun
  | .call _ _ _, .ternary _ _ _ _ => .isFalse nofun
  | .call _ _ _, .grouping _ => .isFalse nofun
  | .call _ _ _, .lit _ => .isFalse nofun
  | .call _ _ _, .var _ => .isFalse nofun
  | .call _ _ _, .unary _ _ => .isFalse nofun
  | .call _ _ _, .assignment _ _ => .isFalse nofun
  | .call _ _ _, .logical _ _ _ => .isFalse nofun

def exprListDecEq : (a b : List Expr) → Decidable (a = b)
  | [], [] => .isTrue rfl
  | x :: xs, y :: ys =>
      match exprDecEq x y, exprListDecEq xs ys with
      | .isTrue h1, .isTrue h2 => .isTrue (by rw [h1, h2])
      | .isFalse h1, _ => .isFalse (fun he => by injection he with he1 he2; exact h1 he1)
      | _, .isFalse h2 => .isFalse (fun he => by injection he with he1 he2; exact h2 he2)
  | [], _ :: _ => .isFalse nofun
  | _ :: _, [] => .isFalse nofun

end

instance : DecidableEq Expr := exprDecEq

mutual

def stmtDecEq : (a b : Stmt) → Decidable (a = b)
  | .print e1, .print e2 =>
      match decEq e1 e2 with
      | .isTrue h1 => .isTrue (by rw [h1])
      | .isFalse h1 => .isFalse (fun he => by injection he with h1e; exact h1 h1e)
  | .expr e1, .expr e2 =>
      match decEq e1 e2 with
      | .isTrue h1 => .isTrue (by rw [h1])
      | .isFalse h1 => .isFalse (fun he => by injection he with h1e; exact h1 h1e)
  | .var name1 init1, .var name2 init2 =>
      match decEq name1 name2, decEq init1 init2 with
      | .isTrue h1, .isTrue h2 => .isTrue (by rw [h1, h2])
      | .isFalse h1, _ => .isFalse (fun he => by injection he with h1e h2e; exact h1 h1e)
      | _, .isFalse h2 => .isFalse (fun he => by injection he with h1e h2e; exact h2 h2e)
  | .block stmts1, .block stmts2 =>
      match stmtListDecEq stmts1 stmts2 with
      | .isTrue h1 => .isTrue (by rw [h1])
      | .isFalse h1 => .isFalse (fun he => by injection he with h1e; exact h1 h1e)
  | .if_s cond1 then_s1 otherwise1, .if_s cond2 then_s2 otherwise2 =>
      match decEq cond1 cond2, stmtDecEq then_s1 then_s2, stmtOptDecEq otherwise1 otherwise2 with
      | .isTrue h1, .isTrue h2, .isTrue h3 => .isTrue (by rw [h1, h2, h3])
      | .isFalse h1, _, _ => .isFalse (fun he => by injection he with h1e h2e h3e; exact h1 h1e)
      | _, .isFalse h2, _ => .isFalse (fun he => by injection he with h1e h2e h3e; exact h2 h2e)
      | _, _, .isFalse h3 => .isFalse (fun he => by injection he with h1e h2e h3e; exact h3 h3e)
  | .while_s cond1 body1, .while_s cond2 body2 =>
      match decEq cond1 cond2, stmtDecEq body1 body2 with
      | .isTrue h1, .isTrue h2 => .isTrue (by rw [h1, h2])
      | .isFalse h1, _ => .isFalse (fun he => by injection he with h1e h2e; exact h1 h1e)
      | _, .isFalse h2 => .isFalse (fun he => by injection he with h1e h2e; exact h2 h2e)
  | .brk line1, .brk line2 =>
      match decEq line1 line2 with
      | .isTrue h1 => .isTrue (by rw [h1])
      | .isFalse h1 => .isFalse (fun he => by injection he with h1e; exact h1 h1e)
  | .print _, .expr _ => .isFalse nofun
  | .print _, .var _ _ => .isFalse nofun
  | .print _, .block _ => .isFalse nofun
  | .print _, .if_s _ _ _ => .isFalse nofun
  | .print _, .while_s _ _ => .isFalse nofun
  | .print _, .brk _ => .isFalse nofun
  | .expr _, .print _ => .isFalse nofun
  | .expr _, .var _ _ => .isFalse nofun
  | .expr _, .block _ => .isFalse nofun
  | .expr _, .if_s _ _ _ => .isFalse nofun
  | .expr _, .while_s _ _ => .isFalse nofun
  | .expr _, .brk _ => .isFalse nofun
  | .var _ _, .print _ => .isFalse nofun
  | .var _ _, .expr _ => .isFalse nofun
  | .var _ _, .block _ => .isFalse nofun
  | .var _ _, .if_s _ _ _ => .isFalse nofun
  | .var _ _, .while_s _ _ => .isFalse nofun
  | .var _ _, .brk _ => .isFalse nofun
  | .block _, .print _ => .isFalse nofun
  | .block _, .expr _ => .isFalse nofun
  | .block _, .var _ _ => .isFalse nofun
  | .block _, .if_s _ _ _ => .isFalse nofun
  | .block _, .while_s _ _ => .isFalse nofun
  | .block _, .brk _ => .isFalse nofun
  | .if_s _ _ _, .print _ => .isFalse nofun
  | .if_s _ _ _, .expr _ => .isFalse nofun
  | .if_s _ _ _, .var _ _ => .isFalse nofun
  | .if_s _ _ _, .block _ => .isFalse nofun
  | .if_s _ _ _, .while_s _ _ => .isFalse nofun
  | .if_s _ _ _, .brk _ => .isFalse nofun
  | .while_s _ _, .print _ => .isFalse nofun
  | .while_s _ _, .expr _ => .isFalse nofun
  | .while_s _ _, .var _ _ => .isFalse nofun
  | .while_s _ _, .block _ => .isFalse nofun
  | .while_s _ _, .if_s _ _ _ => .isFalse nofun
  | .while_s _ _, .brk _ => .isFalse nofun
  | .brk _, .print _ => .isFalse nofun
  | .brk _, .expr _ => .isFalse nofun
  | .brk _, .var _ _ => .isFalse nofun
  | .brk _, .block _ => .isFalse nofun
  | .brk _, .if_s _ _ _ => .isFalse nofun
  | .brk _, .while_s _ _ => .isFalse nofun

def stmtListDecEq : (a b : List Stmt) → Decidable (a = b)
  | [], [] => .isTrue rfl
  | x :: xs, y :: ys =>
      match stmtDecEq x y, stmtListDecEq xs ys with
      | .isTrue h1, .isTrue h2 => .isTrue (by rw [h1, h2])
      | .isFalse h1, _ => .isFalse (fun he => by injection he with he1 he2; exact h1 he1)
      | _, .isFalse h2 => .isFalse (fun he => by injection he with he1 he2; exact h2 he2)
  | [], _ :: _ => .isFalse nofun
  | _ :: _, [] => .isFalse nofun

def stmtOptDecEq : (a b : Option Stmt) → Decidable (a = b)
  | none, none => .isTrue rfl
  | some x, some y =>
      match stmtDecEq x y with
      | .isTrue h1 => .isTrue (by rw [h1])
      | .isFalse h1 => .isFalse (fun he => by injection he with he1; exact h1 he1)
  | none, some _ => .isFalse nofun
  | some _, none => .isFalse nofun

end

instance : DecidableEq Stmt := stmtDecEq

instance {α : Type} [DecidableEq α] : DecidableEq (PR α) := fun a b =>
  match a, b with
  | .ok x s, .ok y t => if h : x = y ∧ s = t then .isTrue (by rw [h.1, h.2]) else .isFalse (fun he => by injection he with h1 h2; exact h ⟨h1, h2⟩)
  | .err e s, .err f t => if h : e = f ∧ s = t then .isTrue (by rw [h.1, h.2]) else .isFalse (fun he => by injection he with h1 h2; exact h ⟨h1, h2⟩)
  | .ok _ _, .err _ _ => .isFalse nofun
  | .err _ _, .ok _ _ => .isFalse nofun


/-! ## Concrete programs and token lists used by the claim theorems -/

/-- Tokens of `while (true) { break; }` — `break` scans as an `Identifier`. -/
def toksWhileBreak : List Token :=
  [Token.new .while_kw "while" 1, Token.new .leftParen "(" 1,
   Token.new (.literal (.boolean true)) "true" 1, Token.new .rightParen ")" 1,
   Token.new .leftBrace "\x7b" 1, Token.new .identifier "break" 1,
   Token.new .semicolon ";" 1, Token.new .rightBrace "\x7d" 1, Token.new .eof "" 1]

/-- Parse of `while (true) { break; }`: the body is an *expression statement*
reading the variable `break`, not a `Break` node. -/
def stmtsWhileBreak : List Stmt :=
  [.while_s (.lit (.boolean true))
    (.block [.expr (.var (Token.new .identifier "break" 1))])]

def toksBareBreak : List Token :=
  [Token.new .identifier "break" 1, Token.new .semicolon ";" 1, Token.new .eof "" 1]

def stmtsBareBreak : List Stmt :=
  [.expr (.var (Token.new .identifier "break" 1))]

/-- Tokens of `var 1; var 2;` — two declarations, each with the same
independent syntax error (a number where a variable name is required). -/
def toksTwoBadVars : List Token :=
  [Token.new .var_kw "var" 1, Token.new (.literal (.num 1)) "1" 1,
   Token.new .semicolon ";" 1, Token.new .var_kw "var" 1,
   Token.new (.literal (.num 2)) "2" 1, Token.new .semicolon ";" 1,
   Token.new .eof "" 1]

/-- The source of the diverging block comment: a newline between `/*` and `*/`. -/
def commentSrc : List Char := "/*\n*/".toList

/--
C10: the claim states that every binary expression the parser can produce is
handled by `visit_binary` without reaching its `unreachable!()` arm.  But
`Parser::comma` builds `Expr::Binary` nodes whose operator token is `Comma`,
and `visit_binary`'s match has no `Comma` arm: `1, 2;` parses fine and then
panics the evaluator.
-/
def toksCommaExpr : List Token :=
  [Token.new (.literal (.num 1)) "1" 1, Token.new .comma "," 1,
   Token.new (.literal (.num 2)) "2" 1, Token.new .semicolon ";" 1,
   Token.new .eof "" 1]

def stmtsCommaExpr : List Stmt :=
  [.expr (.binary (.lit (.num 1)) (Token.new .comma "," 1) (.lit (.num 2)))]

/-- The program `{ break; break; }`: one top-level statement containing two
misplaced breaks. -/
def progTwoBreaks : List Stmt := [Stmt.block [Stmt.brk 1, Stmt.brk 2]]


/-- Single-character tokens shared by the C6 programs. -/
def aT : Token := Token.new .identifier "a" 1
def bT : Token := Token.new .identifier "b" 1
def cT : Token := Token.new .identifier "c" 1
def dT : Token := Token.new .identifier "d" 1
def eT : Token := Token.new .identifier "e" 1
def qT : Token := Token.new .questionMark "?" 1
def clT : Token := Token.new .colon ":" 1
def lpT : Token := Token.new .leftParen "(" 1
def rpT : Token := Token.new .rightParen ")" 1
def scT : Token := Token.new .semicolon ";" 1
def eofT : Token := Token.new .eof "" 1

/-- Tokens of `a ? b : c ? d : e ;`. -/
def toksChainTernary : List Token := [aT, qT, bT, clT, cT, qT, dT, clT, eT, scT, eofT]

/-- Tokens of `a ? b : (c ? d : e) ;`. -/
def toksParenTernary : List Token := [aT, qT, bT, clT, lpT, cT, qT, dT, clT, eT, rpT, scT, eofT]

def innerTern : Expr := .grouping (.ternary qT (.var cT) (.var dT) (.var eT))
def fullTern : Expr := .ternary qT (.var aT) (.var bT) innerTern

/-- Parser states reached while parsing `toksParenTernary`, innermost first. -/
def sInit : PState := { tokens := toksParenTernary, previous := none, errors := [] }
def st1 : PState := { tokens := [qT, bT, clT, lpT, cT, qT, dT, clT, eT, rpT, scT, eofT], previous := none, errors := [] }
def st2 : PState := { tokens := [bT, clT, lpT, cT, qT, dT, clT, eT, rpT, scT, eofT], previous := some qT, errors := [] }
def st2x : PState := { tokens := [bT, clT, lpT, cT, qT, dT, clT, eT, rpT, scT, eofT], previous := none, errors := [] }
def st3 : PState := { tokens := [clT, lpT, cT, qT, dT, clT, eT, rpT, scT, eofT], previous := none, errors := [] }
def st3x : PState := { tokens := [lpT, cT, qT, dT, clT, eT, rpT, scT, eofT], previous := some clT, errors := [] }
def st4 : PState := { tokens := [scT, eofT], previous := some rpT, errors := [] }
def st5 : PState := { tokens := [eofT], previous := some scT, errors := [] }
def st6 : PState := { tokens := [], previous := some eofT, errors := [] }


/-- The state carried by an `ok` or `err` outcome — the program's actual exit
paths; abnormal stops carry none. -/
def exitState {α : Type} : IR α → Option IState
  | .ok _ s => some s
  | .err _ s => some s
  | _ => none

/-! ### One-step evaluation lemmas for the parser
Each lemma replays one parser function on an arbitrary state, taking the
results of its sub-parses as hypotheses; they let a concrete parse be
assembled from small, separately evaluated pieces. -/

theorem bind_app {α β : Type} (m : PM α) (k : α → PM β) (s : PState) :
    (m >>= k) s = (match m s with | .ok a s' => k a s' | .err e s' => .err e s') := rfl

theorem pure_app {α : Type} (a : α) (s : PState) : (pure a : PM α) s = .ok a s := rfl

theorem catchP_app {α : Type} (m : PM α) (h : PErr → PM α) (s : PState) :
    catchP m h s = (match m s with | .ok a s' => .ok a s' | .err e s' => h e s') := rfl

theorem getPS_app (s : PState) : getPS s = .ok s s := rfl

theorem ternaryP_eval (f : Nat) (s0 s1 s2 s2' s3 s3' s4 : PState)
    (left tCond fCond : Expr) (tk ct : Token)
    (hL : logicOrP f s0 = .ok left s1)
    (hQ : currMatch [.questionMark] s1 = .ok true s2)
    (hTk : previousUnwrap s2 = .ok tk s2')
    (hT : logicOrP f s2' = .ok tCond s3)
    (hCol : consumeT .colon "Expected to find \x27:\x27 after expr" s3 = .ok ct s3')
    (hF : logicOrP f s3' = .ok fCond s4) :
    ternaryP (f + 1) s0 = .ok (.ternary tk left tCond fCond) s4 := by
  show (do
    let left ← logicOrP f
    if ← currMatch [.questionMark] then do
      let tk ← previousUnwrap
      let tCond ← logicOrP f
      let _ ← consumeT .colon "Expected to find \x27:\x27 after expr"
      let fCond ← logicOrP f
      pure (.ternary tk left tCond fCond)
    else
      pure left : PM Expr) s0 = _
  simp only [bind_app, pure_app, hL, hQ, hTk, hT, hCol, hF, if_true]

theorem commaP_pass (g : Nat) (s s' : PState) (e : Expr)
    (h : ternaryP (g + 1) s = .ok e s')
    (hnc : currMatch [.comma] s' = .ok false s') :
    commaP (g + 2) s = .ok e s' := by
  show matchLeftAsoc (g + 1) [.comma] (ternaryP (g + 1)) s = _
  show (do
    let e ← ternaryP (g + 1)
    mtoLoop [.comma] (ternaryP (g + 1)) .binary (g + 1) e : PM Expr) s = _
  simp only [bind_app, h, mtoLoop, hnc, pure_app, Bool.false_eq_true, if_false]

theorem assignmentP_pass (f : Nat) (s s' : PState) (e : Expr)
    (h : commaP f s = .ok e s')
    (hne : currMatch [.equal] s' = .ok false s') :
    assignmentP (f + 1) s = .ok e s' := by
  show (do
    let e ← commaP f
    if ← currMatch [.equal] then do
      let equals ← previousUnwrap
      let value ← assignmentP f
      match e with
      | .var nm => pure (.assignment nm value)
      | _ => do
          reportErr equals "Invalid assignment target."
          pure e
    else
      pure e : PM Expr) s = _
  simp only [bind_app, h, hne, pure_app, Bool.false_eq_true, if_false]

theorem expressionP_eval (f : Nat) (s : PState) : expressionP (f + 1) s = assignmentP f s := rfl

theorem expressionStatementP_eval (f : Nat) (s s1 s2 : PState) (e : Expr) (t : Token)
    (h : expressionP f s = .ok e s1)
    (hsc : consumeT .semicolon "Expected \x27;\x27 after value" s1 = .ok t s2) :
    expressionStatementP (f + 1) s = .ok (.expr e) s2 := by
  show (do
    let value ← expressionP f
    let _ ← consumeT .semicolon "Expected \x27;\x27 after value"
    pure (.expr value) : PM Stmt) s = _
  simp only [bind_app, h, hsc, pure_app]

theorem statementP_pass (f : Nat) (s : PState) (r : PR Stmt)
    (h1 : currMatch [.print_kw] s = .ok false s)
    (h2 : currMatch [.leftBrace] s = .ok false s)
    (h3 : currMatch [.if_kw] s = .ok false s)
    (h4 : currMatch [.while_kw] s = .ok false s)
    (h5 : currMatch [.for_kw] s = .ok false s)
    (h6 : currMatch [.break_] s = .ok false s)
    (h : expressionStatementP f s = r) :
    statementP (f + 1) s = r := by
  show (do
    if ← currMatch [.print_kw] then printStatementP f
    else if ← currMatch [.leftBrace] then blockP f
    else if ← currMatch [.if_kw] then ifStatementP f
    else if ← currMatch [.while_kw] then whileStatementP f
    else if ← currMatch [.for_kw] then forStatementP f
    else if ← currMatch [.break_] then breakStatementP f
    else expressionStatementP f : PM Stmt) s = r
  simp only [bind_app, h1, h2, h3, h4, h5, h6, h, Bool.false_eq_true, if_false]

theorem declarationP_ok (f : Nat) (s s' : PState) (st : Stmt)
    (hv : currMatch [.var_kw] s = .ok false s)
    (h : statementP f s = .ok st s') :
    declarationP (f + 1) s = .ok st s' := by
  show catchP
      (do
        if ← currMatch [.var_kw] then varDeclarationP f
        else statementP f)
      (fun e =>
        match e with
        | .parserError => do synchronizeP f; throwP .parserError
        | other => throwP other) s = _
  simp only [catchP_app, bind_app, hv, h, Bool.false_eq_true, if_false]

theorem parseLoop_step (f : Nat) (acc : List Stmt) (s s' : PState) (st : Stmt)
    (hne : s.tokens.isEmpty = false)
    (heof : currMatch [.eof] s = .ok false s)
    (h : declarationP f s = .ok st s') :
    parseLoop (f + 1) acc s = parseLoop f (acc ++ [st]) s' := by
  show (do
    let s ← getPS
    if s.tokens.isEmpty then pure acc
    else if ← currMatch [.eof] then pure acc
    else do
      let d ← declarationP f
      parseLoop f (acc ++ [d]) : PM (List Stmt)) s = _
  simp only [bind_app, getPS_app, hne, heof, h, pure_app, Bool.false_eq_true, if_false]

theorem parseLoop_done (f : Nat) (acc : List Stmt) (s s' : PState)
    (hne : s.tokens.isEmpty = false)
    (heof : currMatch [.eof] s = .ok true s') :
    parseLoop (f + 1) acc s = .ok acc s' := by
  show (do
    let s ← getPS
    if s.tokens.isEmpty then pure acc
    else if ← currMatch [.eof] then pure acc
    else do
      let d ← declarationP f
      parseLoop f (acc ++ [d]) : PM (List Stmt)) s = _
  simp only [bind_app, getPS_app, hne, heof, pure_app, Bool.false_eq_true, if_false, if_true]

/-! ## C1 — `break` never became a keyword -/

/--
C1: the claim states that `while (true) { break; }` terminates without any
reported error and that a bare top-level `break;` is rejected by the context
checker before execution.  The code disagrees on both counts: `"break"` is
missing from `KEYWORD_MAP` (and `TokenType` has no `Break` variant), so
`break` lexes as an ordinary identifier.  `while (true) { break; }` runs and
aborts with an "Undefined variable" *runtime* error for the variable `break`,
and a bare `break;` sails through the context checker (zero diagnostics) and
executes, also failing at runtime with "Undefined variable".
-/
theorem c1_break_lexes_as_identifier :
    run 50 ("while (true) \x7b break; \x7d".toList)
      = .executed (.err (.interpreterError ⟨1, "break", "Undefined variable"⟩) initIState)
  ∧ run 50 ("break;".toList)
      = .executed (.err (.interpreterError ⟨1, "break", "Undefined variable"⟩) initIState)
  ∧ check stmtsBareBreak = [] := by
  refine ⟨?_, ?_, by decide⟩
  · have hscan : scanTokens 50 ("while (true) \x7b break; \x7d".toList) = .ok (toksWhileBreak, []) := by
      decide
    have hparse : parseTokens 50 toksWhileBreak
        = .ok stmtsWhileBreak { tokens := [], previous := some (Token.new .eof "" 1), errors := [] } :=
      rfl
    have hcheck : check stmtsWhileBreak = [] := by decide
    have hint : interpret 50 stmtsWhileBreak
        = .err (.interpreterError ⟨1, "break", "Undefined variable"⟩) initIState := by decide
    simp only [run, hscan, hparse, hcheck, hint, List.isEmpty_nil, and_self, ite_true]
  · have hscan : scanTokens 50 ("break;".toList) = .ok (toksBareBreak, []) := by decide
    have hparse : parseTokens 50 toksBareBreak
        = .ok stmtsBareBreak { tokens := [], previous := some (Token.new .eof "" 1), errors := [] } :=
      rfl
    have hcheck : check stmtsBareBreak = [] := by decide
    have hint : interpret 50 stmtsBareBreak
        = .err (.interpreterError ⟨1, "break", "Undefined variable"⟩) initIState := by decide
    simp only [run, hscan, hparse, hcheck, hint, List.isEmpty_nil, and_self, ite_true]

/-! ## C2 — the first declaration error aborts the parse -/

/--
C2: the claim states that a single parse pass reports every independent
syntax error, synchronizing between declarations.  In the code,
`Parser::parse` writes `stmts.push(self.declaration()?)`: the `?` propagates
the first declaration's `ParserError` out of `parse` right after
`synchronize` ran, so the remaining declarations are never parsed.  For
`var 1; var 2;` — two independent syntax errors — exactly one diagnostic
("Expected variable name." at `1`) is reported and evaluation is suppressed.
-/
theorem c2_parse_stops_at_first_declaration_error :
    run 50 ("var 1; var 2;".toList)
      = .suppressed [] [⟨1, "1", "Expected variable name."⟩] [] := by
  have hscan : scanTokens 50 ("var 1; var 2;".toList) = .ok (toksTwoBadVars, []) := by decide
  have hparse : parseTokens 50 toksTwoBadVars
      = .err .parserError
          { tokens := [Token.new .var_kw "var" 1, Token.new (.literal (.num 2)) "2" 1,
                       Token.new .semicolon ";" 1, Token.new .eof "" 1],
            previous := some (Token.new .semicolon ";" 1),
            errors := [⟨1, "1", "Expected variable name."⟩] } :=
    rfl
  simp only [run, hscan, hparse]

/-! ## C3 — the scanner neither always terminates nor always reaches `Eof` -/

/-- Inside `commentSrc`'s block comment, the scan position sits on the
newline; the loop body increments `line` without advancing `current`, so the
loop never progresses, whatever the fuel. -/
theorem blockCommentStuckOnNewline (fuel : Nat) : ∀ line : Nat,
    blockCommentLoopT fuel 1
      { src := commentSrc, tokens := [], start := 0, current := 2, line := line, errors := [] }
      = .error .outOfFuel := by
  induction fuel with
  | zero => intro line; rfl
  | succ f ih =>
      intro line
      have step : blockCommentLoopT (f + 1) 1
            { src := commentSrc, tokens := [], start := 0, current := 2, line := line, errors := [] }
          = blockCommentLoopT f 1
            { src := commentSrc, tokens := [], start := 0, current := 2, line := line + 1, errors := [] } := rfl
      rw [step]
      exact ih (line + 1)

theorem grabTokenCommentStuck (f : Nat) :
    grabToken f { src := commentSrc, tokens := [], start := 0, current := 0, line := 1, errors := [] }
      = .error .outOfFuel := by
  have h : grabToken f { src := commentSrc, tokens := [], start := 0, current := 0, line := 1, errors := [] }
      = Except.bind
          (blockCommentLoopT f 1
            { src := commentSrc, tokens := [], start := 0, current := 2, line := 1, errors := [] })
          (fun p =>
            if p.1 ≠ 0 then Except.ok (scError p.2 "Unclosed block comment.")
            else Except.ok p.2) := rfl
  rw [h, blockCommentStuckOnNewline f 1]
  rfl

/--
C3: the claim states that `scan_tokens` terminates on every input with an
`Eof`-terminated token list, and that an unterminated block comment only
reports an error.  The code disagrees twice over.  First conjunct: on the
input `/*` newline `*/` the block-comment loop handles a newline by
incrementing the line counter *without advancing*, so the scan never
finishes (for every fuel the model reports `outOfFuel`).  Second conjunct:
on the input `1` (any source ending in a digit), `Scanner::number` evaluates
`peek_next()`, which slices `src[current+1..]` past the end of the string —
a Rust panic, so no `Eof` token is ever produced.
-/
theorem c3_scanner_divergence_and_panic :
    (∀ fuel, scanTokens fuel commentSrc = .error .outOfFuel)
  ∧ scanTokens 50 ("1".toList) = .error .panicked := by
  constructor
  · intro fuel
    match fuel with
    | 0 => rfl
    | f + 1 =>
        have h : scanTokens (f + 1) commentSrc
            = Except.bind
                (Except.bind
                  (grabToken f { src := commentSrc, tokens := [], start := 0, current := 0, line := 1, errors := [] })
                  (scanLoop f))
                (fun s => Except.ok (s.tokens ++ [Token.new .eof "" s.line], s.errors)) := rfl
        rw [h, grabTokenCommentStuck f]
        rfl
  · rfl

/-! ## C10 — the comma operator panics the evaluator -/

theorem c10_comma_binary_reaches_unreachable :
    parseTokens 50 toksCommaExpr
      = .ok stmtsCommaExpr { tokens := [], previous := some (Token.new .eof "" 1), errors := [] }
  ∧ run 50 ("1, 2;".toList) = .executed .panicked := by
  refine ⟨rfl, ?_⟩
  have hscan : scanTokens 50 ("1, 2;".toList) = .ok (toksCommaExpr, []) := by decide
  have hparse : parseTokens 50 toksCommaExpr
      = .ok stmtsCommaExpr { tokens := [], previous := some (Token.new .eof "" 1), errors := [] } :=
    rfl
  have hcheck : check stmtsCommaExpr = [] := by decide
  have hint : interpret 50 stmtsCommaExpr = .panicked := by decide
  simp only [run, hscan, hparse, hcheck, hint, List.isEmpty_nil, and_self, ite_true]

/-! ## C4 — one diagnostic per top-level statement, not per misplaced break -/

/--
C4 counterexample: `progTwoBreaks` contains two break statements outside any
loop, but `check` reports a single diagnostic — `visit_block_stmt` stops at
the first failing statement (`?`), and `check` collects at most one error per
top-level statement.
-/
theorem c4_counterexample :
    breaksOutsideList false progTwoBreaks = 2
  ∧ check progTwoBreaks = [.breakOutsideLoop 1]
  ∧ (check progTwoBreaks).length ≠ breaksOutsideList false progTwoBreaks :=
  ⟨rfl, rfl, by decide⟩

/-! ## C5 — assignment is the lowest precedence level, not comma -/

/--
C5 counterexample: for the token sequence `x = 1 , 2` the parser produces an
*assignment* node as the root (with the comma expression as its assigned
value), not a comma node with the assignment as left operand:
`Parser::expression` delegates to `assignment`, whose left-hand side is
parsed by `comma` — so `=` is the loosest operator, not `,`.
-/
theorem c5_counterexample :
    expressionP 50
        { tokens := [Token.new .identifier "x" 1, Token.new .equal "=" 1,
                     Token.new (.literal (.num 1)) "1" 1, Token.new .comma "," 1,
                     Token.new (.literal (.num 2)) "2" 1],
          previous := none, errors := [] }
      = .ok (.assignment (Token.new .identifier "x" 1)
              (.binary (.lit (.num 1)) (Token.new .comma "," 1) (.lit (.num 2))))
          { tokens := [], previous := none, errors := [] }
  ∧ (Expr.assignment (Token.new .identifier "x" 1)
        (.binary (.lit (.num 1)) (Token.new .comma "," 1) (.lit (.num 2))))
      ≠ (Expr.binary
          (.assignment (Token.new .identifier "x" 1) (.lit (.num 1)))
          (Token.new .comma "," 1) (.lit (.num 2))) :=
  ⟨rfl, fun h => Expr.noConfusion h⟩

/--
C5 amended: in the expression grammar assignment is the lowest precedence
level and comma-sequencing binds tighter than it: for every token sequence
of the form `x = l1 , l2` (literal operands), the parser produces the
assignment node as the root, with the comma node `l1 , l2` as its assigned
value.
-/
theorem c5_amended_assignment_is_root (l1 l2 : Lit) (lx1 lx2 : String) (n1 n2 : Nat) :
    expressionP 50
        { tokens := [Token.new .identifier "x" 1, Token.new .equal "=" 1,
                     Token.new (.literal l1) lx1 n1, Token.new .comma "," 1,
                     Token.new (.literal l2) lx2 n2],
          previous := none, errors := [] }
      = .ok (.assignment (Token.new .identifier "x" 1)
              (.binary (.lit l1) (Token.new .comma "," 1) (.lit l2)))
          { tokens := [], previous := none, errors := [] } :=
  rfl

/-! ## C6 — the ternary is not chainable without parentheses -/

set_option maxHeartbeats 1600000 in
/--
C6 counterexample: the token sequence `a ? b : c ? d : e ;` does not parse:
`Parser::ternary` reads both branches at `logic_or` precedence, so after
`a ? b : c` the second `?` is left in the stream and the statement fails with
"Expected ';' after value" at `?`.
-/
theorem c6_counterexample :
    parseTokens 50 toksChainTernary
      = .err .parserError
          { tokens := [eofT],
            previous := some scT,
            errors := [⟨1, "?", "Expected \x27;\x27 after value"⟩] } := by
  decide

set_option maxHeartbeats 1000000 in
/--
C6 amended: the ternary operator is single-level — its condition and both
branches are parsed at logical-or precedence, so a nested ternary in a branch
position requires explicit parentheses; `a ? b : (c ? d : e)` parses with
the nested ternary wrapped in a `Grouping` node.
-/
theorem c6_amended_nested_ternary_needs_parens :
    parseTokens 50 toksParenTernary = .ok [.expr fullTern] st6 := by
  have hL : logicOrP 42 sInit = .ok (.var aT) st1 := by decide
  have hQ : currMatch [.questionMark] st1 = .ok true st2 := by decide
  have hTk : previousUnwrap st2 = .ok qT st2x := by decide
  have hT : logicOrP 42 st2x = .ok (.var bT) st3 := by decide
  have hCol : consumeT .colon "Expected to find \x27:\x27 after expr" st3 = .ok clT st3x := by decide
  have hF : logicOrP 42 st3x = .ok innerTern st4 := by decide
  have htern : ternaryP 43 sInit = .ok fullTern st4 :=
    ternaryP_eval 42 sInit st1 st2 st2x st3 st3x st4 _ _ _ _ _ hL hQ hTk hT hCol hF
  have hnc : currMatch [.comma] st4 = .ok false st4 := by decide
  have hcomma : commaP 44 sInit = .ok fullTern st4 := commaP_pass 42 _ _ _ htern hnc
  have hne : currMatch [.equal] st4 = .ok false st4 := by decide
  have hassign : assignmentP 45 sInit = .ok fullTern st4 := assignmentP_pass 44 _ _ _ hcomma hne
  have hexpr : expressionP 46 sInit = .ok fullTern st4 := by
    rw [expressionP_eval 45 sInit]; exact hassign
  have hsc : consumeT .semicolon "Expected \x27;\x27 after value" st4 = .ok scT st5 := by decide
  have hes : expressionStatementP 47 sInit = .ok (.expr fullTern) st5 :=
    expressionStatementP_eval 46 _ _ _ _ _ hexpr hsc
  have h1 : currMatch [.print_kw] sInit = .ok false sInit := by decide
  have h2 : currMatch [.leftBrace] sInit = .ok false sInit := by decide
  have h3 : currMatch [.if_kw] sInit = .ok false sInit := by decide
  have h4 : currMatch [.while_kw] sInit = .ok false sInit := by decide
  have h5 : currMatch [.for_kw] sInit = .ok false sInit := by decide
  have h6 : currMatch [.break_] sInit = .ok false sInit := by decide
  have hstmt : statementP 48 sInit = .ok (.expr fullTern) st5 :=
    statementP_pass 47 _ _ h1 h2 h3 h4 h5 h6 hes
  have hv : currMatch [.var_kw] sInit = .ok false sInit := by decide
  have hdecl : declarationP 49 sInit = .ok (.expr fullTern) st5 := declarationP_ok 48 _ _ _ hv hstmt
  have hne0 : sInit.tokens.isEmpty = false := by decide
  have heof0 : currMatch [.eof] sInit = .ok false sInit := by decide
  have hstep : parseLoop 50 [] sInit = parseLoop 49 [.expr fullTern] st5 :=
    parseLoop_step 49 [] _ _ _ hne0 heof0 hdecl
  have hne5 : st5.tokens.isEmpty = false := by decide
  have heof5 : currMatch [.eof] st5 = .ok true st6 := by decide
  have hdone : parseLoop 49 [.expr fullTern] st5 = .ok [.expr fullTern] st6 :=
    parseLoop_done 48 _ _ _ hne5 heof5
  show parseLoop 50 [] sInit = .ok [.expr fullTern] st6
  rw [hstep, hdone]

/-! ## C7 — `+` does not coerce booleans or nil -/

/--
C7 counterexample: `true + "foo"` does not evaluate to the string
`"truefoo"`; `unpack_into_string` coerces only strings and numbers, so a
boolean (or nil) operand fails the string path with a runtime error.
-/
theorem c7_counterexample :
    evaluate 10 (.binary (.lit (.boolean true)) (Token.new .plus "+" 1) (.lit (.str "foo"))) initIState
      = .err (.interpreterError ⟨1, "+", "Expected value that can be a String"⟩) initIState :=
  rfl

/--
C7 amended: for `+` on literal operands — both numbers give their numeric sum
(`1 + 2` is the number `3`); otherwise each operand that is a number or a
string is coerced to its display string left-to-right and the results are
concatenated (`"foo" + 1` is `"foo1"`, `1 + "foo"` is `"1foo"`); a boolean or
nil operand makes `+` fail with a runtime error instead of coercing.
-/
theorem c7_amended_plus_contract (f : Nat) (lex : String) (line : Nat) (l r : Lit) (st : IState) :
    evaluate (f + 2) (.binary (.lit l) (Token.new .plus lex line) (.lit r)) st
      = (match plusSpec (Token.new .plus lex line) l r with
         | .ok v => .ok v st
         | .error e => .err e st) := by
  cases l <;> cases r <;> rfl


/-! ### C8 — variable lookup walks the scope chain -/

theorem getOuter_chainLookup (tk : Token) (envs : List Env) :
    getOuter tk envs =
      (match chainLookup tk.lexeme envs with
       | some v => .ok v
       | none => .error (.interpreterError (.ofToken tk "Undefined variable"))) := by
  induction envs with
  | nil => rfl
  | cons e rest ih =>
      simp only [getOuter, chainLookup, Env.get]
      cases h : List.lookup tk.lexeme e.values with
      | none => simp only [ih]
      | some v => rfl

/--
C8: `Stack::get` distinguishes exactly three outcomes, decided by the
innermost scope of the chain (current scope first, then the pushed scopes
outward) that contains the name: bound-with-value yields the value,
declared-but-uninitialized yields the "Uninitialized variable" error, and a
name no scope contains yields the "Undefined variable" error.
-/
theorem c8_get_three_outcomes (st : Stack) (tk : Token) :
    st.get tk =
      (match chainLookup tk.lexeme (st.current :: st.envs) with
       | some (some v) => .ok v
       | some none => .error (.interpreterError (.ofToken tk "Uninitialized variable"))
       | none => .error (.interpreterError (.ofToken tk "Undefined variable"))) := by
  show (do
    match ← st.get_helper tk with
    | some lt => .ok lt
    | none => .error (.interpreterError (.ofToken tk "Uninitialized variable")) : Except RuntimeError Lit) = _
  unfold Stack.get_helper
  simp only [chainLookup, Env.get]
  cases h : List.lookup tk.lexeme st.current.values with
  | some v =>
      cases v with
      | none => rfl
      | some lt => rfl
  | none =>
      rw [getOuter_chainLookup]
      cases h2 : chainLookup tk.lexeme st.envs with
      | none => rfl
      | some v => cases v with
          | none => rfl
          | some lt => rfl

/-! ### C4 — one context diagnostic per offending top-level statement -/

theorem exceptBind_ok_iff {ε : Type} (m : Except ε Unit) (k : Unit → Except ε Unit) :
    (m >>= k) = .ok () ↔ m = .ok () ∧ k () = .ok () := by
  cases m with
  | ok u =>
      cases u
      have : (Except.ok () >>= k : Except ε Unit) = k () := rfl
      rw [this]
      simp
  | error e =>
      have : (Except.error e >>= k : Except ε Unit) = .error e := rfl
      rw [this]
      simp

mutual

theorem ctxVisit_ok_iff (b : Bool) (s : Stmt) :
    ctxVisit b s = .ok () ↔ breaksOutside b s = 0 := by
  cases s with
  | print e => simp [ctxVisit, breaksOutside]
  | expr e => simp [ctxVisit, breaksOutside]
  | var n i => simp [ctxVisit, breaksOutside]
  | brk line => cases b <;> simp [ctxVisit, breaksOutside]
  | while_s c body => simpa [ctxVisit, breaksOutside] using ctxVisit_ok_iff true body
  | if_s c t o =>
      cases o with
      | none =>
          simp only [ctxVisit, breaksOutside, exceptBind_ok_iff]
          simp [ctxVisit_ok_iff b t]
      | some other =>
          simp only [ctxVisit, breaksOutside, exceptBind_ok_iff]
          simp [ctxVisit_ok_iff b t, ctxVisit_ok_iff b other]
  | block stmts =>
      simpa [ctxVisit, breaksOutside] using ctxVisitList_ok_iff b stmts

theorem ctxVisitList_ok_iff (b : Bool) (l : List Stmt) :
    ctxVisitList b l = .ok () ↔ breaksOutsideList b l = 0 := by
  cases l with
  | nil => simp [ctxVisitList, breaksOutsideList]
  | cons s rest =>
      simp only [ctxVisitList, breaksOutsideList, exceptBind_ok_iff]
      simp [ctxVisit_ok_iff b s, ctxVisitList_ok_iff b rest]

end

theorem c4_amended_one_report_per_top_level_statement (stmts : List Stmt) :
    (check stmts).length
      = stmts.countP (fun s => decide (breaksOutside false s ≠ 0)) := by
  induction stmts with
  | nil => rfl
  | cons s rest ih =>
      simp only [check] at ih ⊢
      simp only [List.filterMap_cons, List.countP_cons]
      cases h : ctxVisit false s with
      | ok u =>
          cases u
          have h0 : breaksOutside false s = 0 := (ctxVisit_ok_iff false s).mp h
          simp [h, h0, ih]
      | error e =>
          have h0 : breaksOutside false s ≠ 0 := by
            intro hz
            have hok := (ctxVisit_ok_iff false s).mpr hz
            rw [h] at hok
            exact Except.noConfusion hok
          simp [h, h0, ih]

/-! ### C9 — block execution preserves scope-chain depth -/

theorem assignOuter_length (name : Token) (v : Lit) :
    ∀ envs envs', assignOuter name v envs = some envs' → envs'.length = envs.length := by
  intro envs
  induction envs with
  | nil => intro envs' h; exact absurd h (by simp [assignOuter])
  | cons e rest ih =>
      intro envs' h
      simp only [assignOuter] at h
      cases he : e.assign name v with
      | ok e' => rw [he] at h; cases h; simp
      | error er =>
          rw [he] at h
          cases hr : assignOuter name v rest with
          | some rest' => rw [hr] at h; cases h; simp [ih rest' hr]
          | none => rw [hr] at h; exact absurd h (by simp)

theorem stack_assign_length (st : Stack) (name : Token) (v : Lit) (st' : Stack)
    (h : st.assign name v = .ok st') : st'.envs.length = st.envs.length := by
  unfold Stack.assign at h
  cases hc : st.current.assign name v with
  | ok c => rw [hc] at h; cases h; rfl
  | error er =>
      rw [hc] at h
      cases ho : assignOuter name v st.envs with
      | some envs' => rw [ho] at h; cases h; simpa using assignOuter_length name v st.envs envs' ho
      | none => rw [ho] at h; exact absurd h (by simp)

theorem restore_old_length (s : Stack) (s' : Stack) (h : s.restore_old = some s') :
    s'.envs.length + 1 = s.envs.length := by
  unfold Stack.restore_old at h
  cases he : s.envs with
  | nil => rw [he] at h; exact absurd h (by simp)
  | cons e rest => rw [he] at h; cases h; simp [he]

theorem binaryOp_state (op : Token) (l r : Lit) (st : IState) :
    ∀ s', exitState (binaryOp op l r st) = some s' → s' = st := by
  intro s'
  unfold binaryOp
  repeat' split
  all_goals intro h
  all_goals simp only [exitState, Option.some.injEq] at h
  all_goals first
    | exact h.symm
    | exact absurd h (by simp)

theorem depth_master : ∀ fuel : Nat,
    (∀ e st s', exitState (evaluate fuel e st) = some s' →
        s'.stack.envs.length = st.stack.envs.length)
  ∧ (∀ es st s', exitState (evalArgs fuel es st) = some s' →
        s'.stack.envs.length = st.stack.envs.length)
  ∧ (∀ stm st s', exitState (execute fuel stm st) = some s' →
        s'.stack.envs.length = st.stack.envs.length)
  ∧ (∀ stmts st s', exitState (execBlockList fuel stmts st) = some s' →
        s'.stack.envs.length + 1 = st.stack.envs.length)
  ∧ (∀ c b st s', exitState (whileLoop fuel c b st) = some s' →
        s'.stack.envs.length = st.stack.envs.length) := by
  intro fuel
  induction fuel with
  | zero =>
      refine ⟨?_, ?_, ?_, ?_, ?_⟩ <;> intro _ _ _ <;>
        first
        | (intro h; simp [evaluate, evalArgs, execute, execBlockList, whileLoop, exitState] at h)
        | (intro _ h; simp [evaluate, evalArgs, execute, execBlockList, whileLoop, exitState] at h)
  | succ f ih =>
      obtain ⟨ihe, iha, ihx, ihb, ihw⟩ := ih
      refine ⟨?_, ?_, ?_, ?_, ?_⟩
      · -- evaluate
        intro e st s'
        cases e with
        | lit l => intro h; simp [evaluate, exitState] at h; try cases h; omega
        | grouping g => exact fun h => ihe g st s' h
        | unary op g =>
            simp only [evaluate]
            cases h1 : evaluate f g st with
            | ok v s1 =>
                have hd1 := ihe g st s1 (by rw [h1]; rfl)
                try dsimp only
                cases hop : op.t_type <;> cases hv : unpack_number v op <;> intro h <;>
                  simp [exitState] at h <;> (try cases h) <;> omega
            | err er s1 =>
                have hd1 := ihe g st s1 (by rw [h1]; rfl)
                intro h; simp [exitState] at h; try cases h; omega
            | panicked => intro h; simp [exitState] at h
            | stubCall => intro h; simp [exitState] at h
            | fuelOut => intro h; simp [exitState] at h
        | binary l op r =>
            simp only [evaluate]
            cases h1 : evaluate f l st with
            | ok lv s1 =>
                have hd1 := ihe l st s1 (by rw [h1]; rfl)
                try dsimp only
                cases h2 : evaluate f r s1 with
                | ok rv s2 =>
                    have hd2 := ihe r s1 s2 (by rw [h2]; rfl)
                    try dsimp only
                    intro h
                    have := binaryOp_state op lv rv s2 s' h
                    subst this; omega
                | err er s2 =>
                    have hd2 := ihe r s1 s2 (by rw [h2]; rfl)
                    intro h; simp [exitState] at h; try cases h; omega
                | panicked => intro h; simp [exitState] at h
                | stubCall => intro h; simp [exitState] at h
                | fuelOut => intro h; simp [exitState] at h
            | err er s1 =>
                have hd1 := ihe l st s1 (by rw [h1]; rfl)
                intro h; simp [exitState] at h; try cases h; omega
            | panicked => intro h; simp [exitState] at h
            | stubCall => intro h; simp [exitState] at h
            | fuelOut => intro h; simp [exitState] at h
        | logical l op r =>
            simp only [evaluate]
            cases h1 : evaluate f l st with
            | ok lv s1 =>
                have hd1 := ihe l st s1 (by rw [h1]; rfl)
                try dsimp only
                cases hop : op.t_type <;> (try dsimp only) <;> split <;> intro h <;>
                  first
                  | (have hr := ihe r s1 s' h; omega)
                  | (simp [exitState] at h; (try cases h); omega)
            | err er s1 =>
                have hd1 := ihe l st s1 (by rw [h1]; rfl)
                intro h; simp [exitState] at h; try cases h; omega
            | panicked => intro h; simp [exitState] at h
            | stubCall => intro h; simp [exitState] at h
            | fuelOut => intro h; simp [exitState] at h
        | ternary op c t fb =>
            simp only [evaluate]
            cases h1 : evaluate f c st with
            | ok cv s1 =>
                have hd1 := ihe c st s1 (by rw [h1]; rfl)
                try dsimp only
                split
                · intro h; have := ihe t s1 s' h; omega
                · intro h; have := ihe fb s1 s' h; omega
            | err er s1 =>
                have hd1 := ihe c st s1 (by rw [h1]; rfl)
                intro h; simp [exitState] at h; try cases h; omega
            | panicked => intro h; simp [exitState] at h
            | stubCall => intro h; simp [exitState] at h
            | fuelOut => intro h; simp [exitState] at h
        | var name =>
            simp only [evaluate]
            cases st.stack.get name <;> (try dsimp only) <;> intro h <;>
              simp [exitState] at h <;> (try cases h) <;> omega
        | assignment name v =>
            simp only [evaluate]
            cases h1 : evaluate f v st with
            | ok vv s1 =>
                have hd1 := ihe v st s1 (by rw [h1]; rfl)
                try dsimp only
                cases h2 : s1.stack.assign name vv with
                | ok stk' =>
                    have hl := stack_assign_length s1.stack name vv stk' h2
                    intro h; simp [exitState] at h; try cases h
                    simp only []; omega
                | error er =>
                    intro h; simp [exitState] at h; try cases h; omega
            | err er s1 =>
                have hd1 := ihe v st s1 (by rw [h1]; rfl)
                intro h; simp [exitState] at h; try cases h; omega
            | panicked => intro h; simp [exitState] at h
            | stubCall => intro h; simp [exitState] at h
            | fuelOut => intro h; simp [exitState] at h
        | call callee tk args =>
            simp only [evaluate]
            cases h1 : evaluate f callee st with
            | ok cv s1 =>
                have hd1 := ihe callee st s1 (by rw [h1]; rfl)
                try dsimp only
                cases h2 : evalArgs f args s1 with
                | ok vs s2 => intro h; simp [exitState] at h
                | err er s2 =>
                    have hd2 := iha args s1 s2 (by rw [h2]; rfl)
                    intro h; simp [exitState] at h; try cases h; omega
                | panicked => intro h; simp [exitState] at h
                | stubCall => intro h; simp [exitState] at h
                | fuelOut => intro h; simp [exitState] at h
            | err er s1 =>
                have hd1 := ihe callee st s1 (by rw [h1]; rfl)
                intro h; simp [exitState] at h; try cases h; omega
            | panicked => intro h; simp [exitState] at h
            | stubCall => intro h; simp [exitState] at h
            | fuelOut => intro h; simp [exitState] at h
      · -- evalArgs
        intro es st s'
        cases es with
        | nil => intro h; simp [evalArgs, exitState] at h; try cases h; omega
        | cons e rest =>
            simp only [evalArgs]
            cases h1 : evaluate f e st with
            | ok v s1 =>
                have hd1 := ihe e st s1 (by rw [h1]; rfl)
                try dsimp only
                cases h2 : evalArgs f rest s1 with
                | ok vs s2 =>
                    have hd2 := iha rest s1 s2 (by rw [h2]; rfl)
                    intro h; simp [exitState] at h; try cases h; omega
                | err er s2 =>
                    have hd2 := iha rest s1 s2 (by rw [h2]; rfl)
                    intro h; simp [exitState] at h; try cases h; omega
                | panicked => intro h; simp [exitState] at h
                | stubCall => intro h; simp [exitState] at h
                | fuelOut => intro h; simp [exitState] at h
            | err er s1 =>
                have hd1 := ihe e st s1 (by rw [h1]; rfl)
                intro h; simp [exitState] at h; try cases h; omega
            | panicked => intro h; simp [exitState] at h
            | stubCall => intro h; simp [exitState] at h
            | fuelOut => intro h; simp [exitState] at h
      · -- execute
        intro stm st s'
        cases stm with
        | print e =>
            simp only [execute]
            cases h1 : evaluate f e st with
            | ok v s1 =>
                have hd1 := ihe e st s1 (by rw [h1]; rfl)
                intro h; simp [exitState] at h; try cases h; simp; omega
            | err er s1 =>
                have hd1 := ihe e st s1 (by rw [h1]; rfl)
                intro h; simp [exitState] at h; try cases h; omega
            | panicked => intro h; simp [exitState] at h
            | stubCall => intro h; simp [exitState] at h
            | fuelOut => intro h; simp [exitState] at h
        | brk line =>
            intro h; simp [execute, exitState] at h; try cases h; omega
        | while_s c b => exact fun h => ihw c b st s' h
        | if_s c t o =>
            simp only [execute]
            cases h1 : evaluate f c st with
            | ok cv s1 =>
                have hd1 := ihe c st s1 (by rw [h1]; rfl)
                try dsimp only
                split
                · intro h; have := ihx t s1 s' h; omega
                · cases o with
                  | some o2 => intro h; have := ihx o2 s1 s' h; omega
                  | none => intro h; simp [exitState] at h; try cases h; omega
            | err er s1 =>
                have hd1 := ihe c st s1 (by rw [h1]; rfl)
                intro h; simp [exitState] at h; try cases h; omega
            | panicked => intro h; simp [exitState] at h
            | stubCall => intro h; simp [exitState] at h
            | fuelOut => intro h; simp [exitState] at h
        | block stmts =>
            simp only [execute]
            intro h
            have hb := ihb stmts { st with stack := st.stack.push_new } s' h
            simp only [Stack.push_new, List.length_cons] at hb
            omega
        | var name init =>
            simp only [execute]
            cases init with
            | some e =>
                try dsimp only
                cases h1 : evaluate f e st with
                | ok v s1 =>
                    have hd1 := ihe e st s1 (by rw [h1]; rfl)
                    intro h; simp [exitState, h1] at h; try cases h
                    simp [Stack.define]; omega
                | err er s1 =>
                    have hd1 := ihe e st s1 (by rw [h1]; rfl)
                    intro h; simp [exitState, h1] at h; try cases h; omega
                | panicked => intro h; simp [exitState, h1] at h
                | stubCall => intro h; simp [exitState, h1] at h
                | fuelOut => intro h; simp [exitState, h1] at h
            | none =>
                intro h; simp [exitState] at h; try cases h
                simp [Stack.define]
        | expr e =>
            simp only [execute]
            cases h1 : evaluate f e st with
            | ok v s1 =>
                have hd1 := ihe e st s1 (by rw [h1]; rfl)
                intro h; simp [exitState] at h; try cases h; omega
            | err er s1 =>
                have hd1 := ihe e st s1 (by rw [h1]; rfl)
                intro h; simp [exitState] at h; try cases h; omega
            | panicked => intro h; simp [exitState] at h
            | stubCall => intro h; simp [exitState] at h
            | fuelOut => intro h; simp [exitState] at h
      · -- execBlockList
        intro stmts st s'
        cases stmts with
        | nil =>
            simp only [execBlockList]
            cases hr : st.stack.restore_old with
            | some stk2 =>
                have hl := restore_old_length st.stack stk2 hr
                intro h; simp [exitState] at h; try cases h
                simp; omega
            | none => intro h; simp [exitState] at h
        | cons s1 rest =>
            simp only [execBlockList]
            cases h1 : execute f s1 st with
            | ok u s2 =>
                have hd1 := ihx s1 st s2 (by rw [h1]; rfl)
                try dsimp only
                intro h
                have := ihb rest s2 s' h
                omega
            | err er s2 =>
                have hd1 := ihx s1 st s2 (by rw [h1]; rfl)
                try dsimp only
                cases hr : s2.stack.restore_old with
                | some stk2 =>
                    have hl := restore_old_length s2.stack stk2 hr
                    intro h; simp [exitState] at h; try cases h
                    simp; omega
                | none => intro h; simp [exitState] at h
            | panicked => intro h; simp [exitState] at h
            | stubCall => intro h; simp [exitState] at h
            | fuelOut => intro h; simp [exitState] at h
      · -- whileLoop
        intro c b st s'
        simp only [whileLoop]
        cases h1 : evaluate f c st with
        | ok cv s1 =>
            have hd1 := ihe c st s1 (by rw [h1]; rfl)
            try dsimp only
            split
            · cases h2 : execute f b s1 with
              | ok u s2 =>
                  have hd2 := ihx b s1 s2 (by rw [h2]; rfl)
                  try dsimp only
                  intro h
                  have := ihw c b s2 s' h
                  omega
              | err er s2 =>
                  have hd2 := ihx b s1 s2 (by rw [h2]; rfl)
                  cases er <;> (try dsimp only) <;> intro h <;> simp [exitState] at h <;>
                    (try cases h) <;> omega
              | panicked => intro h; simp [exitState] at h
              | stubCall => intro h; simp [exitState] at h
              | fuelOut => intro h; simp [exitState] at h
            · intro h; simp [exitState] at h; try cases h; omega
        | err er s1 =>
            have hd1 := ihe c st s1 (by rw [h1]; rfl)
            intro h; simp [exitState] at h; try cases h; omega
        | panicked => intro h; simp [exitState] at h
        | stubCall => intro h; simp [exitState] at h
        | fuelOut => intro h; simp [exitState] at h

/--
C9: executing a Block statement leaves the scope-chain depth unchanged on
every exit path: the scope pushed on entry is popped again whether the
contained statements complete normally, propagate a runtime error, or
propagate a break signal (the latter two being `err` outcomes).
-/
theorem c9_block_preserves_depth (fuel : Nat) (stmts : List Stmt) (st : IState) :
    sameDepth st (execute fuel (Stmt.block stmts) st) := by
  cases h : execute fuel (Stmt.block stmts) st with
  | ok u s' =>
      have := (depth_master fuel).2.2.1 (Stmt.block stmts) st s' (by rw [h]; rfl)
      simpa [sameDepth] using this
  | err e s' =>
      have := (depth_master fuel).2.2.1 (Stmt.block stmts) st s' (by rw [h]; rfl)
      simpa [sameDepth] using this
  | panicked => trivial
  | stubCall => trivial
  | fuelOut => trivial

end RLox
